import Mathlib

/-!
# Shallow embedding of the warehouse-system inventory service

This file embeds the inventory ledger and allocation engine of
`app/services/inventory_service.py` together with the data model of
`app/models.py` and the error classes of `app/exceptions.py`, and proves
the specification claims about them.

Modelling conventions:
* Python `int` columns (`quantity`, `safety_stock`, request quantities)
  become `Int`; primary keys and foreign keys become `Nat`.
* Timestamp columns (`created_at`, `updated_at`, `movement_date`) are
  real-clock values that no claim mentions and no branch of the service
  code reads; they are omitted from the model.  `remarks` is likewise
  copied verbatim by the code and never branched on, so it is omitted.
* The database session is a value of type `DB`; `session.exec(select ...)`
  becomes a list query; the autoincrement primary key of `warehouse_item`
  is the `next_item_id` counter.
* Each service function is embedded as a `_body` function that threads the
  session state through the whole `with session.begin()` block and returns
  the session state together with the outcome (raised error or returned
  row), exactly in the source's statement order.  The public function
  commits the state on success and discards it (rollback) on an error.
-/

/-- Model of `MovementType` of `app/models.py`: `IN` / `OUT`. -/
inductive MovementType where
  | IN : MovementType
  | OUT : MovementType
deriving Repr, DecidableEq, BEq

/-- Model of `Product` of `app/models.py`, restricted to the columns the inventory
service reads (`id`, `name`, `sku`; price/description/timestamps are never
read by the service code). -/
structure Product where
  id : Nat
  name : String
  sku : String
deriving Repr, DecidableEq

/-- Model of `WarehouseItem` of `app/models.py` (the spec's StockRecord): a
(product, location) stock row with quantity and safety stock
(column default 5). -/
structure WarehouseItem where
  id : Nat
  product_id : Nat
  quantity : Int
  location : String
  safety_stock : Int
deriving Repr, DecidableEq

/-- Model of `Movement` of `app/models.py`: one immutable audit entry. -/
structure Movement where
  product_id : Nat
  warehouse_item_id : Nat
  movement_type : MovementType
  quantity : Int
deriving Repr, DecidableEq

/-- The ledger store: the three tables plus the autoincrement counter for
`warehouse_item.id`.  Movements are kept in creation order. -/
structure DB where
  products : List Product
  items : List WarehouseItem
  movements : List Movement
  next_item_id : Nat
deriving Repr, DecidableEq

/-- The detail payloads of the exceptions raised in
`inventory_service.py`, one constructor per raise site (the Python code
builds these as format strings; the payload, not the text, is modelled). -/
inductive ErrorDetail where
  | productDefault : ErrorDetail
  | noStockAtLocation : String → ErrorDetail
  | insufficientAtLocation : String → ErrorDetail
  | noStockAnyLocation : ErrorDetail
  | totalInsufficient : ErrorDetail
deriving Repr, DecidableEq

/-- The two exception classes of `app/exceptions.py`:
`ProductNotFoundException` and `InsufficientStockException`.  There is no
third class in the source. -/
inductive StockError where
  | productNotFound : ErrorDetail → StockError
  | insufficientStock : ErrorDetail → StockError
deriving Repr, DecidableEq

/-- Model of `StockInRequest` of `app/schemas.py` (remarks omitted, see header). -/
structure StockInRequest where
  product_id : Nat
  quantity : Int
  location : String
deriving Repr, DecidableEq

/-- Model of `StockOutRequest` of `app/schemas.py`. -/
structure StockOutRequest where
  product_id : Nat
  quantity : Int
  location : Option String
deriving Repr, DecidableEq

/-- Model of `LocationQuantity` of `app/schemas.py`. -/
structure LocationQuantity where
  location : String
  quantity : Int
deriving Repr, DecidableEq

/-- Model of `InventoryQueryRead` of `app/schemas.py`: one overview entry. -/
structure InventoryQueryRead where
  product_id : Nat
  product_name : String
  sku : String
  total_quantity : Int
  locations : List LocationQuantity
deriving Repr, DecidableEq

/-- Model of `LowStockAlert` of `app/schemas.py`. -/
structure LowStockAlert where
  product_id : Nat
  product_name : String
  sku : String
  current_stock : Int
  safety_stock : Int
  location_details : List LocationQuantity
deriving Repr, DecidableEq

/-- Model of `session.get(Product, pid)`: primary-key lookup. -/
def getProduct (db : DB) (pid : Nat) : Option Product :=
  db.products.find? (fun p => p.id == pid)

/-- Model of `select(WarehouseItem).where(product_id == pid, location == loc)`
followed by `.first()`. -/
def findItem (db : DB) (pid : Nat) (loc : String) : Option WarehouseItem :=
  db.items.find? (fun it => it.product_id == pid && it.location == loc)

/-- The effect of `session.add` on an already-persisted row: the row with
the same primary key is replaced by the mutated object. -/
def replaceById (l : List WarehouseItem) (it : WarehouseItem) : List WarehouseItem :=
  l.map (fun x => if x.id == it.id then it else x)

/-- Model of `order_by(WarehouseItem.id)`: ascending sort on the primary key. -/
def sortById (l : List WarehouseItem) : List WarehouseItem :=
  List.insertionSort (fun a b => a.id ≤ b.id) l

/-- Total quantity of a list of stock rows
(`sum(item.quantity for item in ...)`). -/
def sumQ (l : List WarehouseItem) : Int :=
  (l.map (fun it => it.quantity)).sum

/-- Total safety stock of a list of stock rows. -/
def sumSS (l : List WarehouseItem) : Int :=
  (l.map (fun it => it.safety_stock)).sum

/-- Python truthiness of `stock_out_request.location`
(`None` and `""` are falsy). -/
def optStrTruthy : Option String → Bool
  | some s => !s.isEmpty
  | none => false

/-- Model of `stock_in` of `inventory_service.py`, lines 8-71, with the session
state threaded explicitly; first component is the session state at commit
time (or at raise time for an error). -/
def stock_in_body (db : DB) (req : StockInRequest) :
    DB × Except StockError WarehouseItem :=
  match getProduct db req.product_id with
  | none => (db, Except.error (StockError.productNotFound ErrorDetail.productDefault))
  | some _ =>
    match findItem db req.product_id req.location with
    | some existing_item =>
      let db_item : WarehouseItem :=
        { existing_item with quantity := existing_item.quantity + req.quantity }
      let db1 : DB := { db with items := replaceById db.items db_item }
      let movement : Movement :=
        ⟨req.product_id, db_item.id, MovementType.IN, req.quantity⟩
      ({ db1 with movements := db1.movements ++ [movement] }, Except.ok db_item)
    | none =>
      let db_item : WarehouseItem :=
        ⟨db.next_item_id, req.product_id, req.quantity, req.location, 5⟩
      let db1 : DB := { db with items := db.items ++ [db_item],
                                next_item_id := db.next_item_id + 1 }
      let movement : Movement :=
        ⟨req.product_id, db_item.id, MovementType.IN, req.quantity⟩
      ({ db1 with movements := db1.movements ++ [movement] }, Except.ok db_item)

/-- Public `stock_in`: commit on success, roll back on error. -/
def stock_in (db : DB) (req : StockInRequest) :
    Except StockError (DB × WarehouseItem) :=
  match stock_in_body db req with
  | (db1, Except.ok it) => Except.ok (db1, it)
  | (_, Except.error e) => Except.error e

/-- One `OUT` movement row as built in `stock_out`. -/
def mkOutMov (pid iid : Nat) (q : Int) : Movement :=
  ⟨pid, iid, MovementType.OUT, q⟩

/-- The untargeted deduction loop of `stock_out` (lines 149-170): walk the
available rows, deduct `min(item.quantity, remaining_to_deduct)` from each
until the remainder is zero; returns the mutated rows (`updated_items`)
and the `(warehouse_item_id, quantity)` data of the emitted movements, in
loop order. -/
def walkDeduct : List WarehouseItem → Int → List WarehouseItem × List (Nat × Int)
  | [], _ => ([], [])
  | item :: rest, remaining_to_deduct =>
    if remaining_to_deduct == 0 then ([], [])
    else
      let deduct_amount := min item.quantity remaining_to_deduct
      let item2 : WarehouseItem :=
        { item with quantity := item.quantity - deduct_amount }
      let pr := walkDeduct rest (remaining_to_deduct - deduct_amount)
      (item2 :: pr.1, (item.id, deduct_amount) :: pr.2)

/-- The rows feeding the untargeted branch of `stock_out` (lines 134-139):
rows of the product with positive quantity, ordered by ascending id. -/
def availableItems (db : DB) (pid : Nat) : List WarehouseItem :=
  sortById (db.items.filter (fun x => x.product_id == pid && decide (x.quantity > 0)))

/-- Model of `stock_out` of `inventory_service.py`, lines 73-179, with the session
state threaded explicitly (see `stock_in_body`).  The returned row is
`updated_items[0] if updated_items else None`. -/
def stock_out_body (db : DB) (req : StockOutRequest) :
    DB × Except StockError (Option WarehouseItem) :=
  match getProduct db req.product_id with
  | none => (db, Except.error (StockError.productNotFound ErrorDetail.productDefault))
  | some _ =>
    if optStrTruthy req.location then
      let loc := req.location.getD ""
      match findItem db req.product_id loc with
      | none =>
        (db, Except.error (StockError.productNotFound (ErrorDetail.noStockAtLocation loc)))
      | some item_to_update =>
        if item_to_update.quantity < req.quantity then
          (db, Except.error (StockError.insufficientStock (ErrorDetail.insufficientAtLocation loc)))
        else
          let item2 : WarehouseItem :=
            { item_to_update with quantity := item_to_update.quantity - req.quantity }
          let db1 : DB :=
            { db with items := replaceById db.items item2,
                      movements := db.movements ++ [mkOutMov req.product_id item2.id req.quantity] }
          (db1, Except.ok (some item2))
    else
      let available_items := availableItems db req.product_id
      if available_items.isEmpty then
        (db, Except.error (StockError.productNotFound ErrorDetail.noStockAnyLocation))
      else if sumQ available_items < req.quantity then
        (db, Except.error (StockError.insufficientStock ErrorDetail.totalInsufficient))
      else
        let pr := walkDeduct available_items req.quantity
        let db1 : DB :=
          { db with items := pr.1.foldl replaceById db.items,
                    movements := db.movements ++
                      pr.2.map (fun d => mkOutMov req.product_id d.1 d.2) }
        (db1, Except.ok pr.1.head?)

/-- Public `stock_out`: commit on success, roll back on error. -/
def stock_out (db : DB) (req : StockOutRequest) :
    Except StockError (DB × Option WarehouseItem) :=
  match stock_out_body db req with
  | (db1, Except.ok it) => Except.ok (db1, it)
  | (_, Except.error e) => Except.error e

/-- Case-insensitive substring test at position 0 (helper for the
`ilike` filter of the overview query). -/
def chListAtFront : List Char → List Char → Bool
  | [], _ => true
  | _ :: _, [] => false
  | a :: asr, b :: bs => a == b && chListAtFront asr bs

/-- Substring test (helper for `ilike`). -/
def chListSomewhere : List Char → List Char → Bool
  | pat, [] => pat.isEmpty
  | pat, b :: bs => chListAtFront pat (b :: bs) || chListSomewhere pat bs

/-- Model of the name filter `ilike` comparison: case-insensitive containment. -/
def ilikeContains (s pat : String) : Bool :=
  chListSomewhere pat.toLower.toList s.toLower.toList

/-- The filter part of `get_inventory_overview` (lines 205-208); the
`if product_name:` / `if sku:` guards use Python truthiness, so an empty
string disables the corresponding filter. -/
def overviewKeep (product_name sku : Option String) (p : Product) : Bool :=
  (match product_name with
   | some pn => if pn.isEmpty then true else ilikeContains p.name pn
   | none => true) &&
  (match sku with
   | some s => if s.isEmpty then true else p.sku == s.toUpper
   | none => true)

/-- The row set of `get_inventory_overview` (lines 202-211):
`select(WarehouseItem, Product).join(Product)` with the optional filters.
The join resolves each row's foreign key against the product table's
primary key. -/
def overviewRows (db : DB) (product_name sku : Option String) :
    List (WarehouseItem × Product) :=
  (db.items.filterMap (fun it =>
    (getProduct db it.product_id).map (fun p => (it, p)))).filter
    (fun r => overviewKeep product_name sku r.2)

/-- The fresh map entry of `get_inventory_overview` lines 218-224:
total 0, no locations yet. -/
def overviewZero (p : Product) : InventoryQueryRead :=
  ⟨p.id, p.name, p.sku, 0, []⟩

/-- Lines 226-228: add the row's quantity and location to the entry of
the row's product, leaving every other entry alone. -/
def overviewUpd (row : WarehouseItem × Product) (e : InventoryQueryRead) :
    InventoryQueryRead :=
  if e.product_id == row.2.id then
    { e with total_quantity := e.total_quantity + row.1.quantity,
             locations := e.locations ++ [⟨row.1.location, row.1.quantity⟩] }
  else e

/-- One step of the aggregation loop of `get_inventory_overview`
(lines 215-228): insert the row's product into the (insertion-ordered)
map if absent, then add the row's quantity and location to that entry. -/
def insertRow (acc : List InventoryQueryRead) (row : WarehouseItem × Product) :
    List InventoryQueryRead :=
  (if acc.any (fun e => e.product_id == row.2.id) then acc
   else acc ++ [overviewZero row.2]).map (overviewUpd row)

/-- The grouped (pre-pagination) overview list: the insertion-ordered
aggregation map of lines 214-228, as a list of entries. -/
def groupedOverview (db : DB) (product_name sku : Option String) :
    List InventoryQueryRead :=
  (overviewRows db product_name sku).foldl insertRow []

/-- Model of `get_inventory_overview` of `inventory_service.py`, lines 181-233:
group, then slice `[offset : offset + limit]` (the HTTP layer passes
non-negative offsets and limits, so the slice is drop-then-take). -/
def get_inventory_overview (db : DB) (offset limit : Nat)
    (product_name sku : Option String) : List InventoryQueryRead :=
  ((groupedOverview db product_name sku).drop offset).take limit

/-- All stock rows of one product, in table order (used by the low-stock
query and its per-product detail query). -/
def productItems (db : DB) (pid : Nat) : List WarehouseItem :=
  db.items.filter (fun it => it.product_id == pid)

/-- The grouped `HAVING` predicate of `get_low_stock_alerts`
(lines 250-258): the product joins to at least one stock row and the
summed quantity is strictly below the summed safety stock. -/
def lowStockQualifies (db : DB) (p : Product) : Bool :=
  !(productItems db p.id).isEmpty &&
    decide (sumQ (productItems db p.id) < sumSS (productItems db p.id))

/-- Model of `get_low_stock_alerts` of `inventory_service.py`, lines 235-282:
the qualifying products with their sums and the full per-location detail
of a follow-up query (lines 265-271). -/
def get_low_stock_alerts (db : DB) : List LowStockAlert :=
  (db.products.filter (fun p => lowStockQualifies db p)).map (fun p =>
    { product_id := p.id,
      product_name := p.name,
      sku := p.sku,
      current_stock := sumQ (productItems db p.id),
      safety_stock := sumSS (productItems db p.id),
      location_details := (productItems db p.id).map
        (fun it => ⟨it.location, it.quantity⟩) })

/-- One call into the allocation engine. -/
inductive Op where
  | opIn : StockInRequest → Op
  | opOut : StockOutRequest → Op

/-- Run one operation against the store: on success the transaction
commits the new state, on an error the rollback leaves the state as it
was. -/
def applyOp (db : DB) : Op → DB
  | Op.opIn r =>
    match stock_in db r with
    | Except.ok (db1, _) => db1
    | Except.error _ => db
  | Op.opOut r =>
    match stock_out db r with
    | Except.ok (db1, _) => db1
    | Except.error _ => db

/-- Run a sequence of operations. -/
def runOps (db : DB) (ops : List Op) : DB :=
  ops.foldl applyOp db

/-- Sum of the claim's `IN` movement quantities for one product. -/
def sumInMov (movs : List Movement) (pid : Nat) : Int :=
  ((movs.filter (fun m => m.product_id == pid && m.movement_type == MovementType.IN)).map
    (fun m => m.quantity)).sum

/-- Sum of the claim's `OUT` movement quantities for one product. -/
def sumOutMov (movs : List Movement) (pid : Nat) : Int :=
  ((movs.filter (fun m => m.product_id == pid && m.movement_type == MovementType.OUT)).map
    (fun m => m.quantity)).sum

/-- The conservation invariant of the spec (§8): per product,
`sum(IN) - sum(OUT) = sum(current quantities)`. -/
def Conservation (db : DB) : Prop :=
  ∀ pid : Nat, sumInMov db.movements pid - sumOutMov db.movements pid
    = sumQ (productItems db pid)

/-- Structural well-formedness of the store: primary keys of
`warehouse_item` are distinct and below the autoincrement counter. -/
def WF (db : DB) : Prop :=
  (db.items.map (fun it => it.id)).Nodup ∧
  ∀ it ∈ db.items, it.id < db.next_item_id

/-- All quantities non-negative (the `ge=0` column constraint). -/
def ItemsNonNeg (db : DB) : Prop :=
  ∀ it ∈ db.items, 0 ≤ it.quantity

/-- The `conint(gt=0)` validation the HTTP schema layer applies to request
quantities before the service runs. -/
def opQtyPos : Op → Prop
  | Op.opIn r => 0 < r.quantity
  | Op.opOut r => 0 < r.quantity

/-! ## Basic lemmas about the store primitives -/

lemma getProduct_id {db : DB} {pid : Nat} {p : Product}
    (h : getProduct db pid = some p) : p.id = pid := by
  have hp := List.find?_some h
  simpa using hp

lemma getProduct_mem {db : DB} {pid : Nat} {p : Product}
    (h : getProduct db pid = some p) : p ∈ db.products :=
  List.mem_of_find?_eq_some h

lemma findItem_spec {db : DB} {pid : Nat} {loc : String} {it : WarehouseItem}
    (h : findItem db pid loc = some it) :
    it ∈ db.items ∧ it.product_id = pid ∧ it.location = loc := by
  refine ⟨List.mem_of_find?_eq_some h, ?_, ?_⟩
  · have hp := List.find?_some h
    simp only [Bool.and_eq_true, beq_iff_eq] at hp
    exact hp.1
  · have hp := List.find?_some h
    simp only [Bool.and_eq_true, beq_iff_eq] at hp
    exact hp.2

lemma replaceById_id_pointwise (it x : WarehouseItem) :
    (if x.id == it.id then it else x).id = x.id := by
  by_cases h : x.id == it.id
  · simp only [h, if_true]
    exact (beq_iff_eq.mp h).symm
  · simp [h]

lemma replaceById_map_id (l : List WarehouseItem) (it : WarehouseItem) :
    (replaceById l it).map (fun x => x.id) = l.map (fun x => x.id) := by
  induction l with
  | nil => rfl
  | cons a l ih =>
    simp only [replaceById, List.map_cons] at ih ⊢
    rw [ih, replaceById_id_pointwise]

lemma mem_replaceById_of_ne {l : List WarehouseItem} {x it : WarehouseItem}
    (hx : x ∈ l) (hne : x.id ≠ it.id) : x ∈ replaceById l it := by
  unfold replaceById
  have : x = (fun y => if y.id == it.id then it else y) x := by
    simp [hne]
  rw [this]
  exact List.mem_map_of_mem _ hx

lemma mem_replaceById {l : List WarehouseItem} {x it : WarehouseItem}
    (hx : x ∈ replaceById l it) : x ∈ l ∨ x = it := by
  unfold replaceById at hx
  rcases List.mem_map.mp hx with ⟨y, hy, hxy⟩
  by_cases h : y.id == it.id
  · right; simp [h] at hxy; exact hxy.symm
  · left; simp only [Bool.not_eq_true] at h; simp [h] at hxy; exact hxy ▸ hy

lemma replaceById_eq_self {l : List WarehouseItem} {it : WarehouseItem}
    (h : ∀ x ∈ l, x.id ≠ it.id) : replaceById l it = l := by
  induction l with
  | nil => rfl
  | cons a l ih =>
    simp only [replaceById, List.map_cons]
    have ha : a.id ≠ it.id := h a (List.mem_cons_self a l)
    simp only [replaceById] at ih
    rw [ih (fun x hx => h x (List.mem_cons_of_mem a hx))]
    simp [ha]

lemma foldl_replaceById_map_id (ts : List WarehouseItem) :
    ∀ l : List WarehouseItem,
      (ts.foldl replaceById l).map (fun x => x.id) = l.map (fun x => x.id) := by
  induction ts with
  | nil => intro l; rfl
  | cons t ts ih =>
    intro l
    simp only [List.foldl_cons]
    rw [ih (replaceById l t), replaceById_map_id]

lemma mem_foldl_replaceById (ts : List WarehouseItem) :
    ∀ (l : List WarehouseItem) (x : WarehouseItem),
      x ∈ ts.foldl replaceById l → x ∈ l ∨ x ∈ ts := by
  induction ts with
  | nil => intro l x hx; exact Or.inl hx
  | cons t ts ih =>
    intro l x hx
    simp only [List.foldl_cons] at hx
    rcases ih (replaceById l t) x hx with h | h
    · rcases mem_replaceById h with h2 | h2
      · exact Or.inl h2
      · exact Or.inr (h2 ▸ List.mem_cons_self t ts)
    · exact Or.inr (List.mem_cons_of_mem t h)

lemma mem_sortById {l : List WarehouseItem} {x : WarehouseItem} :
    x ∈ sortById l ↔ x ∈ l :=
  (List.perm_insertionSort _ l).mem_iff

lemma sortById_map_id_nodup {l : List WarehouseItem}
    (h : (l.map (fun x => x.id)).Nodup) :
    ((sortById l).map (fun x => x.id)).Nodup := by
  have hperm : List.Perm ((sortById l).map (fun x => x.id)) (l.map (fun x => x.id)) :=
    (List.perm_insertionSort _ l).map _
  exact hperm.nodup_iff.mpr h

lemma availableItems_facts (db : DB) (pid : Nat) :
    ∀ a ∈ availableItems db pid, a ∈ db.items ∧ a.product_id = pid ∧ 0 < a.quantity := by
  intro a ha
  have ha2 : a ∈ db.items.filter (fun x => x.product_id == pid && decide (x.quantity > 0)) :=
    mem_sortById.mp ha
  have hmem := List.mem_of_mem_filter ha2
  have hpred := List.of_mem_filter ha2
  simp only [Bool.and_eq_true, beq_iff_eq, decide_eq_true_eq] at hpred
  exact ⟨hmem, hpred.1, hpred.2⟩

lemma availableItems_map_id_nodup (db : DB) (pid : Nat)
    (h : (db.items.map (fun x => x.id)).Nodup) :
    ((availableItems db pid).map (fun x => x.id)).Nodup := by
  apply sortById_map_id_nodup
  exact List.Nodup.sublist (List.Sublist.map _ (List.filter_sublist _)) h

/-! ## Per-product sums -/

/-- Stock total of one product over a row list. -/
def sumQpid (l : List WarehouseItem) (pid : Nat) : Int :=
  sumQ (l.filter (fun it => it.product_id == pid))

lemma sumQ_cons (x : WarehouseItem) (l : List WarehouseItem) :
    sumQ (x :: l) = x.quantity + sumQ l := by
  simp [sumQ]

lemma sumQ_nonneg {l : List WarehouseItem} (h : ∀ a ∈ l, 0 ≤ a.quantity) :
    0 ≤ sumQ l := by
  induction l with
  | nil => simp [sumQ]
  | cons a l ih =>
    rw [sumQ_cons]
    have := h a (List.mem_cons_self a l)
    have h2 := ih (fun x hx => h x (List.mem_cons_of_mem a hx))
    omega

lemma sumQpid_nil (pid : Nat) : sumQpid [] pid = 0 := rfl

lemma sumQpid_cons (x : WarehouseItem) (l : List WarehouseItem) (pid : Nat) :
    sumQpid (x :: l) pid
      = (if x.product_id = pid then x.quantity else 0) + sumQpid l pid := by
  by_cases h : x.product_id = pid
  · simp [sumQpid, List.filter_cons, h, sumQ_cons]
  · simp [sumQpid, List.filter_cons, h]

lemma sumQpid_append (l l2 : List WarehouseItem) (pid : Nat) :
    sumQpid (l ++ l2) pid = sumQpid l pid + sumQpid l2 pid := by
  simp [sumQpid, sumQ, List.filter_append]

lemma sumQpid_replaceById (l : List WarehouseItem) (it it2 : WarehouseItem) (pid : Nat)
    (hmem : it ∈ l) (hnd : (l.map (fun x => x.id)).Nodup)
    (hid : it2.id = it.id) (hpid : it2.product_id = it.product_id) :
    sumQpid (replaceById l it2) pid
      = sumQpid l pid + (if it.product_id = pid then it2.quantity - it.quantity else 0) := by
  induction l with
  | nil => cases hmem
  | cons a l ih =>
    have hnd1 : a.id ∉ l.map (fun x => x.id) := (List.nodup_cons.mp hnd).1
    have hnd2 : (l.map (fun x => x.id)).Nodup := (List.nodup_cons.mp hnd).2
    rcases List.mem_cons.mp hmem with hEq | hmem2
    · -- the replaced row is the head
      subst hEq
      have hbeq : (it.id == it2.id) = true := beq_iff_eq.mpr hid.symm
      have htail : replaceById l it2 = l := by
        apply replaceById_eq_self
        intro x hx hxid
        apply hnd1
        have hmm : x.id ∈ l.map (fun y => y.id) := List.mem_map_of_mem _ hx
        rw [hxid, hid] at hmm
        exact hmm
      have hrep : replaceById (it :: l) it2 = it2 :: l := by
        simp only [replaceById, List.map_cons]
        simp only [replaceById] at htail
        rw [hbeq, htail]
        simp
      rw [hrep, sumQpid_cons, sumQpid_cons, hpid]
      by_cases h : it.product_id = pid
      · simp [h]
        ring
      · simp [h]
    · -- the replaced row is in the tail
      have hne : (a.id == it2.id) = false := by
        refine beq_eq_false_iff_ne.mpr ?_
        intro hcontra
        apply hnd1
        have hmm : it.id ∈ l.map (fun y => y.id) := List.mem_map_of_mem _ hmem2
        rw [← hid, ← hcontra] at hmm
        exact hmm
      have hrep : replaceById (a :: l) it2 = a :: replaceById l it2 := by
        simp only [replaceById, List.map_cons]
        rw [hne]
        simp
      rw [hrep, sumQpid_cons, sumQpid_cons, ih hmem2 hnd2]
      ring

/-! ## Movement sum lemmas -/

@[simp] lemma mt_beq_in_in : (MovementType.IN == MovementType.IN) = true := rfl

@[simp] lemma mt_beq_in_out : (MovementType.IN == MovementType.OUT) = false := rfl

@[simp] lemma mt_beq_out_in : (MovementType.OUT == MovementType.IN) = false := rfl

@[simp] lemma mt_beq_out_out : (MovementType.OUT == MovementType.OUT) = true := rfl

lemma sumInMov_append (m1 m2 : List Movement) (pid : Nat) :
    sumInMov (m1 ++ m2) pid = sumInMov m1 pid + sumInMov m2 pid := by
  simp [sumInMov, List.filter_append]

lemma sumOutMov_append (m1 m2 : List Movement) (pid : Nat) :
    sumOutMov (m1 ++ m2) pid = sumOutMov m1 pid + sumOutMov m2 pid := by
  simp [sumOutMov, List.filter_append]

lemma sumInMov_in_single (pid0 iid : Nat) (q : Int) (pid : Nat) :
    sumInMov [⟨pid0, iid, MovementType.IN, q⟩] pid = if pid0 = pid then q else 0 := by
  by_cases h : pid0 = pid <;> simp [sumInMov, List.filter_cons, h]

lemma sumOutMov_in_single (pid0 iid : Nat) (q : Int) (pid : Nat) :
    sumOutMov [⟨pid0, iid, MovementType.IN, q⟩] pid = 0 := by
  by_cases h : pid0 = pid <;> simp [sumOutMov, List.filter_cons, h]

lemma sumInMov_out_single (pid0 iid : Nat) (q : Int) (pid : Nat) :
    sumInMov [mkOutMov pid0 iid q] pid = 0 := by
  by_cases h : pid0 = pid <;> simp [sumInMov, mkOutMov, List.filter_cons, h]

lemma sumOutMov_out_single (pid0 iid : Nat) (q : Int) (pid : Nat) :
    sumOutMov [mkOutMov pid0 iid q] pid = if pid0 = pid then q else 0 := by
  by_cases h : pid0 = pid <;> simp [sumOutMov, mkOutMov, List.filter_cons, h]

lemma sumInMov_out_map (ds : List (Nat × Int)) (pid0 pid : Nat) :
    sumInMov (ds.map (fun d => mkOutMov pid0 d.1 d.2)) pid = 0 := by
  induction ds with
  | nil => simp [sumInMov]
  | cons d ds ih =>
    have : (d :: ds).map (fun d => mkOutMov pid0 d.1 d.2)
        = [mkOutMov pid0 d.1 d.2] ++ ds.map (fun d => mkOutMov pid0 d.1 d.2) := rfl
    rw [this, sumInMov_append, sumInMov_out_single, ih]
    simp

lemma sumOutMov_out_map (ds : List (Nat × Int)) (pid0 pid : Nat) :
    sumOutMov (ds.map (fun d => mkOutMov pid0 d.1 d.2)) pid
      = if pid0 = pid then (ds.map Prod.snd).sum else 0 := by
  induction ds with
  | nil => simp [sumOutMov]
  | cons d ds ih =>
    have : (d :: ds).map (fun d => mkOutMov pid0 d.1 d.2)
        = [mkOutMov pid0 d.1 d.2] ++ ds.map (fun d => mkOutMov pid0 d.1 d.2) := rfl
    rw [this, sumOutMov_append, sumOutMov_out_single, ih]
    by_cases h : pid0 = pid <;> simp [h]

/-! ## Lemmas about the untargeted deduction loop -/

lemma walkDeduct_nil (r : Int) : walkDeduct [] r = ([], []) := rfl

lemma walkDeduct_zero (l : List WarehouseItem) : walkDeduct l 0 = ([], []) := by
  cases l <;> simp [walkDeduct]

lemma walkDeduct_cons {a : WarehouseItem} {rest : List WarehouseItem} {r : Int}
    (hr : r ≠ 0) :
    walkDeduct (a :: rest) r =
      ((⟨a.id, a.product_id, a.quantity - min a.quantity r, a.location, a.safety_stock⟩ : WarehouseItem)
          :: (walkDeduct rest (r - min a.quantity r)).1,
        (a.id, min a.quantity r) :: (walkDeduct rest (r - min a.quantity r)).2) := by
  have hbeq : (r == 0) = false := beq_eq_false_iff_ne.mpr hr
  simp [walkDeduct, hbeq]

lemma walkDeduct_length (l : List WarehouseItem) :
    ∀ r : Int, (walkDeduct l r).1.length = (walkDeduct l r).2.length := by
  induction l with
  | nil => intro r; rfl
  | cons a rest ih =>
    intro r
    by_cases hr : r = 0
    · subst hr; simp [walkDeduct_zero]
    · rw [walkDeduct_cons hr]
      simp [ih]

lemma walkDeduct_deds_sum (l : List WarehouseItem) :
    ∀ r : Int, (∀ a ∈ l, 0 < a.quantity) → r ≤ sumQ l → (l = [] → r = 0) →
      ((walkDeduct l r).2.map Prod.snd).sum = r := by
  induction l with
  | nil =>
    intro r _ _ h3
    simp [walkDeduct_nil, h3 rfl]
  | cons a rest ih =>
    intro r hpos hle _
    by_cases hr : r = 0
    · subst hr; simp [walkDeduct_zero]
    · rw [walkDeduct_cons hr]
      simp only [List.map_cons, List.sum_cons]
      have hposr : ∀ x ∈ rest, 0 < x.quantity :=
        fun x hx => hpos x (List.mem_cons_of_mem a hx)
      have hrest_nonneg : 0 ≤ sumQ rest :=
        sumQ_nonneg (fun x hx => le_of_lt (hposr x hx))
      have hle2 : r - min a.quantity r ≤ sumQ rest := by
        rcases le_total a.quantity r with h | h
        · rw [min_eq_left h]
          rw [sumQ_cons] at hle
          omega
        · rw [min_eq_right h]
          omega
      have h32 : rest = [] → r - min a.quantity r = 0 := by
        intro hrest
        subst hrest
        rw [sumQ_cons] at hle
        have h0 : sumQ ([] : List WarehouseItem) = 0 := rfl
        rw [h0] at hle
        have : min a.quantity r = r := min_eq_right (by omega)
        omega
      rw [ih (r - min a.quantity r) hposr hle2 h32]
      ring

lemma walkDeduct_deds_pos (l : List WarehouseItem) :
    ∀ r : Int, (∀ a ∈ l, 0 < a.quantity) → 0 ≤ r →
      ∀ pr ∈ (walkDeduct l r).2, 0 < pr.2 := by
  induction l with
  | nil => intro r _ _ pr hpr; simp [walkDeduct_nil] at hpr
  | cons a rest ih =>
    intro r hpos hr0 pr hpr
    by_cases hr : r = 0
    · subst hr; simp [walkDeduct_zero] at hpr
    · rw [walkDeduct_cons hr] at hpr
      simp only [List.mem_cons] at hpr
      rcases hpr with hEq | hmem
    
      · subst hEq
        have := hpos a (List.mem_cons_self a rest)
        simp only []
        have hr1 : 0 < r := lt_of_le_of_ne hr0 (Ne.symm hr)
        exact lt_min this hr1
      · have hminle : min a.quantity r ≤ r := min_le_right _ _
        exact ih (r - min a.quantity r)
          (fun x hx => hpos x (List.mem_cons_of_mem a hx)) (by omega) pr hmem

lemma walkDeduct_ids (l : List WarehouseItem) :
    ∀ r : Int,
      (walkDeduct l r).1.map (fun x => x.id) = (walkDeduct l r).2.map Prod.fst ∧
      (walkDeduct l r).2.map Prod.fst
        = (l.map (fun x => x.id)).take (walkDeduct l r).2.length := by
  induction l with
  | nil => intro r; simp [walkDeduct_nil]
  | cons a rest ih =>
    intro r
    by_cases hr : r = 0
    · subst hr; simp [walkDeduct_zero]
    · rw [walkDeduct_cons hr]
      constructor
      · simp [(ih (r - min a.quantity r)).1]
      · simp only [List.map_cons, List.length_cons, List.take_succ_cons]
        rw [(ih (r - min a.quantity r)).2]

lemma walkDeduct_step (l : List WarehouseItem) :
    ∀ (r : Int) (j : Nat) (a : WarehouseItem) (pr : Nat × Int),
      l[j]? = some a → (walkDeduct l r).2[j]? = some pr →
      pr.1 = a.id ∧
      pr.2 = min a.quantity (r - (((walkDeduct l r).2.take j).map Prod.snd).sum) ∧
      (walkDeduct l r).1[j]? = some { a with quantity := a.quantity - pr.2 } := by
  induction l with
  | nil => intro r j a pr ha _; simp at ha
  | cons a0 rest ih =>
    intro r j a pr ha hpr
    by_cases hr : r = 0
    · subst hr; simp [walkDeduct_zero] at hpr
    · rw [walkDeduct_cons hr] at hpr ⊢
      cases j with
      | zero =>
        simp only [List.getElem?_cons_zero, Option.some.injEq] at ha hpr
        subst ha
        refine ⟨?_, ?_, ?_⟩
        · rw [← hpr]
        · rw [← hpr]
          simp
        · simp only [List.getElem?_cons_zero, Option.some.injEq]
          rw [← hpr]
      | succ j =>
        simp only [List.getElem?_cons_succ] at ha hpr
        have hih := ih (r - min a0.quantity r) j a pr ha hpr
        refine ⟨hih.1, ?_, ?_⟩
        · rw [hih.2.1]
          simp only [List.take_succ_cons, List.map_cons, List.sum_cons]
          congr 1
          ring
        · simp only [List.getElem?_cons_succ]
          exact hih.2.2

lemma walkDeduct_touched_nonneg (l : List WarehouseItem) :
    ∀ r : Int, (∀ a ∈ l, 0 ≤ a.quantity) →
      ∀ x ∈ (walkDeduct l r).1, 0 ≤ x.quantity := by
  induction l with
  | nil => intro r _ x hx; simp [walkDeduct_nil] at hx
  | cons a rest ih =>
    intro r hpos x hx
    by_cases hr : r = 0
    · subst hr; simp [walkDeduct_zero] at hx
    · rw [walkDeduct_cons hr] at hx
      simp only [List.mem_cons] at hx
      rcases hx with hEq | hmem
      · subst hEq
        have h1 := hpos a (List.mem_cons_self a rest)
        have h2 : min a.quantity r ≤ a.quantity := min_le_left _ _
        simp only []
        omega
      · exact ih (r - min a.quantity r)
          (fun y hy => hpos y (List.mem_cons_of_mem a hy)) x hmem

lemma walkDeduct_touched_ne_nil {l : List WarehouseItem} {r : Int}
    (hl : l ≠ []) (hr : r ≠ 0) : (walkDeduct l r).1 ≠ [] := by
  cases l with
  | nil => exact absurd rfl hl
  | cons a rest =>
    rw [walkDeduct_cons hr]
    simp

lemma walkDeduct_foldl_sumQpid (l : List WarehouseItem) :
    ∀ (r : Int) (items : List WarehouseItem) (pid0 pid : Nat),
      (items.map (fun x => x.id)).Nodup →
      (∀ a ∈ l, a ∈ items) → ((l.map (fun x => x.id)).Nodup) →
      (∀ a ∈ l, a.product_id = pid0) → (∀ a ∈ l, 0 < a.quantity) →
      r ≤ sumQ l → (l = [] → r = 0) →
      sumQpid ((walkDeduct l r).1.foldl replaceById items) pid
        = sumQpid items pid - (if pid0 = pid then r else 0) := by
  induction l with
  | nil =>
    intro r items pid0 pid _ _ _ _ _ _ h3
    rw [h3 rfl]
    simp [walkDeduct_nil]
  | cons a rest ih =>
    intro r items pid0 pid hndI hsub hndL hpid hpos hle h3
    by_cases hr : r = 0
    · subst hr; simp [walkDeduct_zero]
    · rw [walkDeduct_cons hr]
      simp only [List.foldl_cons]
      set d := min a.quantity r with hd
      set a2 : WarehouseItem :=
        ⟨a.id, a.product_id, a.quantity - d, a.location, a.safety_stock⟩ with ha2
      have hamem : a ∈ items := hsub a (List.mem_cons_self a rest)
      have hndL1 : a.id ∉ rest.map (fun x => x.id) := (List.nodup_cons.mp hndL).1
      have hndL2 : (rest.map (fun x => x.id)).Nodup := (List.nodup_cons.mp hndL).2
      have hstep : sumQpid (replaceById items a2) pid
          = sumQpid items pid + (if a.product_id = pid then a2.quantity - a.quantity else 0) :=
        sumQpid_replaceById items a a2 pid hamem hndI rfl rfl
      have hposr : ∀ x ∈ rest, 0 < x.quantity :=
        fun x hx => hpos x (List.mem_cons_of_mem a hx)
      have hrest_nonneg : 0 ≤ sumQ rest :=
        sumQ_nonneg (fun x hx => le_of_lt (hposr x hx))
      have hle2 : r - d ≤ sumQ rest := by
        rcases le_total a.quantity r with h | h
        · rw [hd, min_eq_left h]
          rw [sumQ_cons] at hle
          omega
        · rw [hd, min_eq_right h]
          omega
      have h32 : rest = [] → r - d = 0 := by
        intro hrest
        subst hrest
        rw [sumQ_cons] at hle
        have h0 : sumQ ([] : List WarehouseItem) = 0 := rfl
        rw [h0] at hle
        have : d = r := by rw [hd]; exact min_eq_right (by omega)
        omega
      have hih := ih (r - d) (replaceById items a2) pid0 pid
        (by rw [replaceById_map_id]; exact hndI)
        (by
          intro b hb
          refine mem_replaceById_of_ne (hsub b (List.mem_cons_of_mem a hb)) ?_
          have : b.id ∈ rest.map (fun x => x.id) := List.mem_map_of_mem _ hb
          intro hcontra
          rw [ha2] at hcontra
          simp only [] at hcontra
          rw [hcontra] at this
          exact hndL1 this)
        hndL2
        (fun x hx => hpid x (List.mem_cons_of_mem a hx))
        hposr hle2 h32
      rw [hih, hstep]
      have hapid : a.product_id = pid0 := hpid a (List.mem_cons_self a rest)
      rw [hapid, ha2]
      simp only []
      by_cases hp : pid0 = pid
      · simp [hp]; ring
      · simp [hp]

/-! ## Branch characterizations of the service bodies -/

lemma isEmpty_eq_false_of_ne_nil {α : Type} {l : List α} (h : l ≠ []) :
    l.isEmpty = false := by
  cases l with
  | nil => exact absurd rfl h
  | cons a t => rfl

lemma stock_in_body_noProduct (db : DB) (req : StockInRequest)
    (hgp : getProduct db req.product_id = none) :
    stock_in_body db req
      = (db, Except.error (StockError.productNotFound ErrorDetail.productDefault)) := by
  simp [stock_in_body, hgp]

lemma stock_in_body_existing (db : DB) (req : StockInRequest) (p : Product)
    (it : WarehouseItem)
    (hgp : getProduct db req.product_id = some p)
    (hf : findItem db req.product_id req.location = some it) :
    stock_in_body db req
      = ({ db with
            items := replaceById db.items { it with quantity := it.quantity + req.quantity },
            movements := db.movements
              ++ [⟨req.product_id, it.id, MovementType.IN, req.quantity⟩] },
         Except.ok { it with quantity := it.quantity + req.quantity }) := by
  simp [stock_in_body, hgp, hf]

lemma stock_in_body_new (db : DB) (req : StockInRequest) (p : Product)
    (hgp : getProduct db req.product_id = some p)
    (hf : findItem db req.product_id req.location = none) :
    stock_in_body db req
      = ({ db with
            items := db.items
              ++ [⟨db.next_item_id, req.product_id, req.quantity, req.location, 5⟩],
            movements := db.movements
              ++ [⟨req.product_id, db.next_item_id, MovementType.IN, req.quantity⟩],
            next_item_id := db.next_item_id + 1 },
         Except.ok ⟨db.next_item_id, req.product_id, req.quantity, req.location, 5⟩) := by
  simp [stock_in_body, hgp, hf]

lemma stock_out_body_noProduct (db : DB) (req : StockOutRequest)
    (hgp : getProduct db req.product_id = none) :
    stock_out_body db req
      = (db, Except.error (StockError.productNotFound ErrorDetail.productDefault)) := by
  simp [stock_out_body, hgp]

lemma stock_out_body_targeted_missing (db : DB) (req : StockOutRequest)
    (p : Product) (loc : String)
    (hgp : getProduct db req.product_id = some p)
    (hl : req.location = some loc)
    (htr : optStrTruthy req.location = true)
    (hf : findItem db req.product_id loc = none) :
    stock_out_body db req
      = (db, Except.error (StockError.productNotFound (ErrorDetail.noStockAtLocation loc))) := by
  rw [hl] at htr
  simp [stock_out_body, hgp, hl, htr, hf]

lemma stock_out_body_targeted_insufficient (db : DB) (req : StockOutRequest)
    (p : Product) (loc : String) (it : WarehouseItem)
    (hgp : getProduct db req.product_id = some p)
    (hl : req.location = some loc)
    (htr : optStrTruthy req.location = true)
    (hf : findItem db req.product_id loc = some it)
    (hlt : it.quantity < req.quantity) :
    stock_out_body db req
      = (db, Except.error (StockError.insufficientStock (ErrorDetail.insufficientAtLocation loc))) := by
  rw [hl] at htr
  simp [stock_out_body, hgp, hl, htr, hf, hlt]

lemma stock_out_body_targeted_ok (db : DB) (req : StockOutRequest)
    (p : Product) (loc : String) (it : WarehouseItem)
    (hgp : getProduct db req.product_id = some p)
    (hl : req.location = some loc)
    (htr : optStrTruthy req.location = true)
    (hf : findItem db req.product_id loc = some it)
    (hge : ¬ it.quantity < req.quantity) :
    stock_out_body db req
      = ({ db with
            items := replaceById db.items { it with quantity := it.quantity - req.quantity },
            movements := db.movements
              ++ [mkOutMov req.product_id it.id req.quantity] },
         Except.ok (some { it with quantity := it.quantity - req.quantity })) := by
  rw [hl] at htr
  simp [stock_out_body, hgp, hl, htr, hf, hge]

lemma stock_out_body_untargeted_empty (db : DB) (req : StockOutRequest)
    (p : Product)
    (hgp : getProduct db req.product_id = some p)
    (htr : optStrTruthy req.location = false)
    (hav : availableItems db req.product_id = []) :
    stock_out_body db req
      = (db, Except.error (StockError.productNotFound ErrorDetail.noStockAnyLocation)) := by
  simp [stock_out_body, hgp, htr, hav]

lemma stock_out_body_untargeted_insufficient (db : DB) (req : StockOutRequest)
    (p : Product)
    (hgp : getProduct db req.product_id = some p)
    (htr : optStrTruthy req.location = false)
    (hne : availableItems db req.product_id ≠ [])
    (hlt : sumQ (availableItems db req.product_id) < req.quantity) :
    stock_out_body db req
      = (db, Except.error (StockError.insufficientStock ErrorDetail.totalInsufficient)) := by
  simp [stock_out_body, hgp, htr, isEmpty_eq_false_of_ne_nil hne, hlt]

lemma stock_out_body_untargeted_ok (db : DB) (req : StockOutRequest)
    (p : Product)
    (hgp : getProduct db req.product_id = some p)
    (htr : optStrTruthy req.location = false)
    (hne : availableItems db req.product_id ≠ [])
    (hge : ¬ sumQ (availableItems db req.product_id) < req.quantity) :
    stock_out_body db req
      = ({ db with
            items := (walkDeduct (availableItems db req.product_id) req.quantity).1.foldl
              replaceById db.items,
            movements := db.movements
              ++ (walkDeduct (availableItems db req.product_id) req.quantity).2.map
                  (fun d => mkOutMov req.product_id d.1 d.2) },
         Except.ok (walkDeduct (availableItems db req.product_id) req.quantity).1.head?) := by
  simp [stock_out_body, hgp, htr, isEmpty_eq_false_of_ne_nil hne, hge]

/-! ## Rollback helpers -/

lemma stock_in_body_error_state (db : DB) (req : StockInRequest) :
    ∀ (db2 : DB) (e : StockError),
      stock_in_body db req = (db2, Except.error e) → db2 = db := by
  intro db2 e h
  simp only [stock_in_body] at h
  repeat' split at h
  all_goals injection h with h1 h2
  all_goals first
    | exact Except.noConfusion h2
    | exact h1.symm

lemma stock_out_body_error_state (db : DB) (req : StockOutRequest) :
    ∀ (db2 : DB) (e : StockError),
      stock_out_body db req = (db2, Except.error e) → db2 = db := by
  intro db2 e h
  simp only [stock_out_body] at h
  repeat' split at h
  all_goals injection h with h1 h2
  all_goals first
    | exact Except.noConfusion h2
    | exact h1.symm

/-! ## The transaction wrappers in terms of the bodies -/

lemma applyOp_opIn (db : DB) (r : StockInRequest) :
    applyOp db (Op.opIn r) = (stock_in_body db r).1 := by
  simp only [applyOp]
  unfold stock_in
  generalize h : stock_in_body db r = x
  rcases x with ⟨db1, res⟩
  cases res with
  | ok it => rfl
  | error e => exact (stock_in_body_error_state db r db1 e h).symm

lemma applyOp_opOut (db : DB) (r : StockOutRequest) :
    applyOp db (Op.opOut r) = (stock_out_body db r).1 := by
  simp only [applyOp]
  unfold stock_out
  generalize h : stock_out_body db r = x
  rcases x with ⟨db1, res⟩
  cases res with
  | ok it => rfl
  | error e => exact (stock_out_body_error_state db r db1 e h).symm

lemma stock_in_eq_ok_iff (db : DB) (req : StockInRequest) (db2 : DB)
    (it : WarehouseItem) :
    stock_in db req = Except.ok (db2, it)
      ↔ stock_in_body db req = (db2, Except.ok it) := by
  unfold stock_in
  generalize h : stock_in_body db req = x
  rcases x with ⟨db1, res⟩
  cases res with
  | ok y =>
    constructor
    · intro h2
      injection h2 with h3
      injection h3 with h4 h5
      subst h4; subst h5; rfl
    · intro h2
      injection h2 with h4 h5
      injection h5 with h5
      subst h4; subst h5; rfl
  | error e =>
    constructor
    · intro h2; exact Except.noConfusion h2
    · intro h2
      injection h2 with h4 h5
      exact Except.noConfusion h5

lemma stock_out_eq_ok_iff (db : DB) (req : StockOutRequest) (db2 : DB)
    (ret : Option WarehouseItem) :
    stock_out db req = Except.ok (db2, ret)
      ↔ stock_out_body db req = (db2, Except.ok ret) := by
  unfold stock_out
  generalize h : stock_out_body db req = x
  rcases x with ⟨db1, res⟩
  cases res with
  | ok y =>
    constructor
    · intro h2
      injection h2 with h3
      injection h3 with h4 h5
      subst h4; subst h5; rfl
    · intro h2
      injection h2 with h4 h5
      injection h5 with h5
      subst h4; subst h5; rfl
  | error e =>
    constructor
    · intro h2; exact Except.noConfusion h2
    · intro h2
      injection h2 with h4 h5
      exact Except.noConfusion h5

lemma stock_out_eq_error_iff (db : DB) (req : StockOutRequest) (e : StockError) :
    stock_out db req = Except.error e
      ↔ ∃ db2, stock_out_body db req = (db2, Except.error e) := by
  unfold stock_out
  generalize h : stock_out_body db req = x
  rcases x with ⟨db1, res⟩
  cases res with
  | ok y =>
    constructor
    · intro h2; exact Except.noConfusion h2
    · rintro ⟨db2, h2⟩
      injection h2 with h4 h5
      exact Except.noConfusion h5
  | error e2 =>
    constructor
    · intro h2
      injection h2 with h3
      subst h3
      exact ⟨db1, rfl⟩
    · rintro ⟨db2, h2⟩
      injection h2 with h4 h5
      injection h5 with h5
      subst h5
      rfl

/-! ## Preservation lemmas -/

lemma sumQ_productItems (db : DB) (pid : Nat) :
    sumQ (productItems db pid) = sumQpid db.items pid := rfl

lemma sumQpid_single (x : WarehouseItem) (pid : Nat) :
    sumQpid [x] pid = if x.product_id = pid then x.quantity else 0 := by
  rw [sumQpid_cons]
  simp [sumQpid_nil]

lemma stock_in_body_conservation (db : DB) (req : StockInRequest)
    (hc : Conservation db) (hwf : WF db) :
    Conservation ((stock_in_body db req).1) := by
  cases hgp : getProduct db req.product_id with
  | none => rw [stock_in_body_noProduct db req hgp]; exact hc
  | some p =>
    cases hf : findItem db req.product_id req.location with
    | some it =>
      rw [stock_in_body_existing db req p it hgp hf]
      intro pid
      obtain ⟨hmem, hpidit, _⟩ := findItem_spec hf
      have hrep := sumQpid_replaceById db.items it
        { it with quantity := it.quantity + req.quantity } pid hmem hwf.1 rfl rfl
      have hcp : sumInMov db.movements pid - sumOutMov db.movements pid
          = sumQpid db.items pid := hc pid
      show sumInMov (db.movements ++ [⟨req.product_id, it.id, MovementType.IN, req.quantity⟩]) pid
          - sumOutMov (db.movements ++ [⟨req.product_id, it.id, MovementType.IN, req.quantity⟩]) pid
          = sumQpid (replaceById db.items { it with quantity := it.quantity + req.quantity }) pid
      rw [sumInMov_append, sumOutMov_append, sumInMov_in_single, sumOutMov_in_single, hrep,
        hpidit]
      by_cases hp : req.product_id = pid
      · simp only [hp, if_pos]
        simp
        omega
      · simp only [hp, if_neg, ite_false]
        simp
        omega
    | none =>
      rw [stock_in_body_new db req p hgp hf]
      intro pid
      have hcp : sumInMov db.movements pid - sumOutMov db.movements pid
          = sumQpid db.items pid := hc pid
      show sumInMov (db.movements ++ [⟨req.product_id, db.next_item_id, MovementType.IN, req.quantity⟩]) pid
          - sumOutMov (db.movements ++ [⟨req.product_id, db.next_item_id, MovementType.IN, req.quantity⟩]) pid
          = sumQpid (db.items ++ [⟨db.next_item_id, req.product_id, req.quantity, req.location, 5⟩]) pid
      rw [sumInMov_append, sumOutMov_append, sumInMov_in_single, sumOutMov_in_single,
        sumQpid_append, sumQpid_single]
      by_cases hp : req.product_id = pid
      · simp only [hp]
        simp
        omega
      · simp only [hp]
        simp [hp]
        omega

lemma stock_out_body_conservation (db : DB) (req : StockOutRequest)
    (hc : Conservation db) (hwf : WF db) :
    Conservation ((stock_out_body db req).1) := by
  cases hgp : getProduct db req.product_id with
  | none => rw [stock_out_body_noProduct db req hgp]; exact hc
  | some p =>
    cases htr : optStrTruthy req.location with
    | true =>
      cases hl : req.location with
      | none => rw [hl] at htr; simp [optStrTruthy] at htr
      | some loc =>
        cases hf : findItem db req.product_id loc with
        | none =>
          rw [stock_out_body_targeted_missing db req p loc hgp hl htr hf]
          exact hc
        | some it =>
          by_cases hlt : it.quantity < req.quantity
          · rw [stock_out_body_targeted_insufficient db req p loc it hgp hl htr hf hlt]
            exact hc
          · rw [stock_out_body_targeted_ok db req p loc it hgp hl htr hf hlt]
            intro pid
            obtain ⟨hmem, hpidit, _⟩ := findItem_spec hf
            have hrep := sumQpid_replaceById db.items it
              { it with quantity := it.quantity - req.quantity } pid hmem hwf.1 rfl rfl
            have hcp : sumInMov db.movements pid - sumOutMov db.movements pid
                = sumQpid db.items pid := hc pid
            show sumInMov (db.movements ++ [mkOutMov req.product_id it.id req.quantity]) pid
                - sumOutMov (db.movements ++ [mkOutMov req.product_id it.id req.quantity]) pid
                = sumQpid (replaceById db.items { it with quantity := it.quantity - req.quantity }) pid
            rw [sumInMov_append, sumOutMov_append, sumInMov_out_single, sumOutMov_out_single,
              hrep, hpidit]
            by_cases hp : req.product_id = pid
            · simp only [hp]
              simp
              omega
            · simp only [hp]
              simp [hp]
              omega
    | false =>
      by_cases hav : availableItems db req.product_id = []
      · rw [stock_out_body_untargeted_empty db req p hgp htr hav]
        exact hc
      · by_cases hlt : sumQ (availableItems db req.product_id) < req.quantity
        · rw [stock_out_body_untargeted_insufficient db req p hgp htr hav hlt]
          exact hc
        · rw [stock_out_body_untargeted_ok db req p hgp htr hav hlt]
          intro pid
          have hcp : sumInMov db.movements pid - sumOutMov db.movements pid
              = sumQpid db.items pid := hc pid
          have hfacts := availableItems_facts db req.product_id
          have hnd := availableItems_map_id_nodup db req.product_id hwf.1
          have hsum := walkDeduct_deds_sum (availableItems db req.product_id) req.quantity
            (fun a ha => (hfacts a ha).2.2) (not_lt.mp hlt)
            (fun hnil => absurd hnil hav)
          have hfold := walkDeduct_foldl_sumQpid (availableItems db req.product_id)
            req.quantity db.items req.product_id pid hwf.1
            (fun a ha => (hfacts a ha).1) hnd
            (fun a ha => (hfacts a ha).2.1) (fun a ha => (hfacts a ha).2.2)
            (not_lt.mp hlt) (fun hnil => absurd hnil hav)
          show sumInMov (db.movements
                ++ (walkDeduct (availableItems db req.product_id) req.quantity).2.map
                    (fun d => mkOutMov req.product_id d.1 d.2)) pid
              - sumOutMov (db.movements
                ++ (walkDeduct (availableItems db req.product_id) req.quantity).2.map
                    (fun d => mkOutMov req.product_id d.1 d.2)) pid
              = sumQpid ((walkDeduct (availableItems db req.product_id) req.quantity).1.foldl
                  replaceById db.items) pid
          rw [sumInMov_append, sumOutMov_append, sumInMov_out_map, sumOutMov_out_map,
            hsum, hfold]
          by_cases hp : req.product_id = pid
          · simp only [hp]
            simp
            omega
          · simp only [hp]
            simp [hp]
            omega

lemma stock_in_body_WF (db : DB) (req : StockInRequest) (hwf : WF db) :
    WF ((stock_in_body db req).1) := by
  cases hgp : getProduct db req.product_id with
  | none => rw [stock_in_body_noProduct db req hgp]; exact hwf
  | some p =>
    cases hf : findItem db req.product_id req.location with
    | some it =>
      rw [stock_in_body_existing db req p it hgp hf]
      constructor
      · show ((replaceById db.items
            { it with quantity := it.quantity + req.quantity }).map (fun x => x.id)).Nodup
        rw [replaceById_map_id]
        exact hwf.1
      · intro x hx
        show x.id < db.next_item_id
        rcases mem_replaceById hx with h | rfl
        · exact hwf.2 x h
        · exact hwf.2 it (findItem_spec hf).1
    | none =>
      rw [stock_in_body_new db req p hgp hf]
      constructor
      · show ((db.items
            ++ [(⟨db.next_item_id, req.product_id, req.quantity, req.location, 5⟩ : WarehouseItem)]).map
              (fun x => x.id)).Nodup
        rw [List.map_append]
        refine List.Nodup.append hwf.1 (List.nodup_singleton _) ?_
        intro a ha hb
        rcases List.mem_map.mp ha with ⟨y, hy, rfl⟩
        have hlt := hwf.2 y hy
        simp only [List.map_cons, List.map_nil, List.mem_singleton] at hb
        have : y.id = db.next_item_id := hb
        omega
      · intro x hx
        show x.id < db.next_item_id + 1
        rcases List.mem_append.mp hx with h | h
        · have := hwf.2 x h
          omega
        · simp only [List.mem_singleton] at h
          rw [h]
          exact Nat.lt_succ_self _

lemma stock_out_body_WF (db : DB) (req : StockOutRequest) (hwf : WF db) :
    WF ((stock_out_body db req).1) := by
  cases hgp : getProduct db req.product_id with
  | none => rw [stock_out_body_noProduct db req hgp]; exact hwf
  | some p =>
    cases htr : optStrTruthy req.location with
    | true =>
      cases hl : req.location with
      | none => rw [hl] at htr; simp [optStrTruthy] at htr
      | some loc =>
        cases hf : findItem db req.product_id loc with
        | none =>
          rw [stock_out_body_targeted_missing db req p loc hgp hl htr hf]
          exact hwf
        | some it =>
          by_cases hlt : it.quantity < req.quantity
          · rw [stock_out_body_targeted_insufficient db req p loc it hgp hl htr hf hlt]
            exact hwf
          · rw [stock_out_body_targeted_ok db req p loc it hgp hl htr hf hlt]
            constructor
            · show ((replaceById db.items
                  { it with quantity := it.quantity - req.quantity }).map (fun x => x.id)).Nodup
              rw [replaceById_map_id]
              exact hwf.1
            · intro x hx
              show x.id < db.next_item_id
              rcases mem_replaceById hx with h | rfl
              · exact hwf.2 x h
              · exact hwf.2 it (findItem_spec hf).1
    | false =>
      by_cases hav : availableItems db req.product_id = []
      · rw [stock_out_body_untargeted_empty db req p hgp htr hav]
        exact hwf
      · by_cases hlt : sumQ (availableItems db req.product_id) < req.quantity
        · rw [stock_out_body_untargeted_insufficient db req p hgp htr hav hlt]
          exact hwf
        · rw [stock_out_body_untargeted_ok db req p hgp htr hav hlt]
          constructor
          · show (((walkDeduct (availableItems db req.product_id) req.quantity).1.foldl
                replaceById db.items).map (fun x => x.id)).Nodup
            rw [foldl_replaceById_map_id]
            exact hwf.1
          · intro x hx
            show x.id < db.next_item_id
            rcases mem_foldl_replaceById _ _ _ hx with h | h
            · exact hwf.2 x h
            · have hxid : x.id ∈ (walkDeduct (availableItems db req.product_id)
                  req.quantity).1.map (fun y => y.id) := List.mem_map_of_mem _ h
              rw [(walkDeduct_ids (availableItems db req.product_id) req.quantity).1,
                (walkDeduct_ids (availableItems db req.product_id) req.quantity).2] at hxid
              have hxid2 : x.id ∈ (availableItems db req.product_id).map (fun y => y.id) :=
                (List.take_sublist _ _).subset hxid
              rcases List.mem_map.mp hxid2 with ⟨a, ha, haid⟩
              have := hwf.2 a ((availableItems_facts db req.product_id a ha).1)
              omega

lemma stock_in_body_nonneg (db : DB) (req : StockInRequest)
    (h : ItemsNonNeg db) (hq : 0 < req.quantity) :
    ItemsNonNeg ((stock_in_body db req).1) := by
  cases hgp : getProduct db req.product_id with
  | none => rw [stock_in_body_noProduct db req hgp]; exact h
  | some p =>
    cases hf : findItem db req.product_id req.location with
    | some it =>
      rw [stock_in_body_existing db req p it hgp hf]
      intro x hx
      rcases mem_replaceById hx with h2 | rfl
      · exact h x h2
      · show (0 : Int) ≤ it.quantity + req.quantity
        have := h it (findItem_spec hf).1
        omega
    | none =>
      rw [stock_in_body_new db req p hgp hf]
      intro x hx
      rcases List.mem_append.mp hx with h2 | h2
      · exact h x h2
      · simp only [List.mem_singleton] at h2
        rw [h2]
        show (0 : Int) ≤ req.quantity
        omega

lemma stock_out_body_nonneg (db : DB) (req : StockOutRequest)
    (h : ItemsNonNeg db) :
    ItemsNonNeg ((stock_out_body db req).1) := by
  cases hgp : getProduct db req.product_id with
  | none => rw [stock_out_body_noProduct db req hgp]; exact h
  | some p =>
    cases htr : optStrTruthy req.location with
    | true =>
      cases hl : req.location with
      | none => rw [hl] at htr; simp [optStrTruthy] at htr
      | some loc =>
        cases hf : findItem db req.product_id loc with
        | none =>
          rw [stock_out_body_targeted_missing db req p loc hgp hl htr hf]
          exact h
        | some it =>
          by_cases hlt : it.quantity < req.quantity
          · rw [stock_out_body_targeted_insufficient db req p loc it hgp hl htr hf hlt]
            exact h
          · rw [stock_out_body_targeted_ok db req p loc it hgp hl htr hf hlt]
            intro x hx
            rcases mem_replaceById hx with h2 | rfl
            · exact h x h2
            · show (0 : Int) ≤ it.quantity - req.quantity
              omega
    | false =>
      by_cases hav : availableItems db req.product_id = []
      · rw [stock_out_body_untargeted_empty db req p hgp htr hav]
        exact h
      · by_cases hlt : sumQ (availableItems db req.product_id) < req.quantity
        · rw [stock_out_body_untargeted_insufficient db req p hgp htr hav hlt]
          exact h
        · rw [stock_out_body_untargeted_ok db req p hgp htr hav hlt]
          intro x hx
          rcases mem_foldl_replaceById _ _ _ hx with h2 | h2
          · exact h x h2
          · exact walkDeduct_touched_nonneg (availableItems db req.product_id) req.quantity
              (fun a ha =>
                le_of_lt ((availableItems_facts db req.product_id a ha).2.2)) x h2

lemma applyOp_preserves (db : DB) (op : Op)
    (hc : Conservation db) (hwf : WF db) :
    Conservation (applyOp db op) ∧ WF (applyOp db op) := by
  cases op with
  | opIn r =>
    rw [applyOp_opIn]
    exact ⟨stock_in_body_conservation db r hc hwf, stock_in_body_WF db r hwf⟩
  | opOut r =>
    rw [applyOp_opOut]
    exact ⟨stock_out_body_conservation db r hc hwf, stock_out_body_WF db r hwf⟩

lemma runOps_preserves (ops : List Op) :
    ∀ db : DB, Conservation db → WF db →
      Conservation (runOps db ops) ∧ WF (runOps db ops) := by
  induction ops with
  | nil => intro db hc hwf; exact ⟨hc, hwf⟩
  | cons op ops ih =>
    intro db hc hwf
    have hstep := applyOp_preserves db op hc hwf
    have h2 := ih (applyOp db op) hstep.1 hstep.2
    simpa [runOps, List.foldl_cons] using h2

/-! ## Overview grouping lemmas -/

/-- Rows of one product within a joined row list. -/
def rowsFor (rows : List (WarehouseItem × Product)) (pid : Nat) :
    List (WarehouseItem × Product) :=
  rows.filter (fun r => r.2.id == pid)

/-- The location/quantity pair contributed by one joined row. -/
def mkLQ (r : WarehouseItem × Product) : LocationQuantity :=
  ⟨r.1.location, r.1.quantity⟩

/-- Total stock quantity of a joined row list. -/
def sumRowQ (rows : List (WarehouseItem × Product)) : Int :=
  (rows.map (fun r => r.1.quantity)).sum

/-- Invariant of the aggregation fold of `get_inventory_overview`: after
processing `processed`, the accumulator holds one entry per distinct
product of `processed`, each carrying exactly that product's rows. -/
def GInv (processed : List (WarehouseItem × Product))
    (acc : List InventoryQueryRead) : Prop :=
  (acc.map (fun e => e.product_id)).Nodup ∧
  (∀ pid : Nat, pid ∈ acc.map (fun e => e.product_id) ↔ ∃ r ∈ processed, r.2.id = pid) ∧
  (∀ e ∈ acc, e.total_quantity = sumRowQ (rowsFor processed e.product_id) ∧
      e.locations = (rowsFor processed e.product_id).map mkLQ)

lemma overviewUpd_pid (row : WarehouseItem × Product) (e : InventoryQueryRead) :
    (overviewUpd row e).product_id = e.product_id := by
  unfold overviewUpd
  split
  · rfl
  · rfl

lemma map_overviewUpd_pid (row : WarehouseItem × Product) :
    ∀ acc : List InventoryQueryRead,
      (acc.map (overviewUpd row)).map (fun e => e.product_id)
        = acc.map (fun e => e.product_id) := by
  intro acc
  induction acc with
  | nil => rfl
  | cons e acc ih => simp [overviewUpd_pid, ih]

lemma overviewUpd_of_ne {row : WarehouseItem × Product} {e : InventoryQueryRead}
    (h : e.product_id ≠ row.2.id) : overviewUpd row e = e := by
  simp [overviewUpd, h]

lemma overviewUpd_of_eq {row : WarehouseItem × Product} {e : InventoryQueryRead}
    (h : e.product_id = row.2.id) :
    overviewUpd row e
      = { e with total_quantity := e.total_quantity + row.1.quantity,
                 locations := e.locations ++ [⟨row.1.location, row.1.quantity⟩] } := by
  simp [overviewUpd, h]

lemma map_overviewUpd_of_none (row : WarehouseItem × Product) :
    ∀ acc : List InventoryQueryRead,
      (∀ e ∈ acc, e.product_id ≠ row.2.id) → acc.map (overviewUpd row) = acc := by
  intro acc
  induction acc with
  | nil => intro _; rfl
  | cons e acc ih =>
    intro h
    simp only [List.map_cons]
    rw [overviewUpd_of_ne (h e (List.mem_cons_self e acc)),
      ih (fun x hx => h x (List.mem_cons_of_mem e hx))]

lemma rowsFor_append_single (l : List (WarehouseItem × Product))
    (r : WarehouseItem × Product) (pid : Nat) :
    rowsFor (l ++ [r]) pid
      = rowsFor l pid ++ (if r.2.id = pid then [r] else []) := by
  by_cases h : r.2.id = pid
  · simp [rowsFor, List.filter_append, h]
  · simp [rowsFor, List.filter_append, h]

lemma sumRowQ_append (l1 l2 : List (WarehouseItem × Product)) :
    sumRowQ (l1 ++ l2) = sumRowQ l1 + sumRowQ l2 := by
  simp [sumRowQ]

lemma rowsFor_eq_nil (l : List (WarehouseItem × Product)) (pid : Nat)
    (h : ∀ r ∈ l, r.2.id ≠ pid) : rowsFor l pid = [] := by
  induction l with
  | nil => rfl
  | cons r l ih =>
    have hr : (r.2.id == pid) = false :=
      beq_eq_false_iff_ne.mpr (h r (List.mem_cons_self r l))
    simp only [rowsFor, List.filter_cons, hr, Bool.false_eq_true, if_false]
    simpa [rowsFor] using ih (fun x hx => h x (List.mem_cons_of_mem r hx))

lemma GInv_insertRow (processed : List (WarehouseItem × Product))
    (acc : List InventoryQueryRead) (row : WarehouseItem × Product)
    (h : GInv processed acc) : GInv (processed ++ [row]) (insertRow acc row) := by
  obtain ⟨hnd, hiff, hent⟩ := h
  by_cases hany : acc.any (fun e => e.product_id == row.2.id) = true
  · -- the product already has an entry: the entry is extended in place
    have hres : insertRow acc row = acc.map (overviewUpd row) := by
      simp [insertRow, hany]
    obtain ⟨e0, he0, hpe0⟩ : ∃ e ∈ acc, e.product_id = row.2.id := by
      rcases List.any_eq_true.mp hany with ⟨e, he, hbe⟩
      exact ⟨e, he, beq_iff_eq.mp hbe⟩
    refine ⟨?_, ?_, ?_⟩
    · rw [hres, map_overviewUpd_pid]
      exact hnd
    · intro pid
      rw [hres, map_overviewUpd_pid]
      constructor
      · intro hmem
        rcases (hiff pid).mp hmem with ⟨r, hr, hrid⟩
        exact ⟨r, List.mem_append_left _ hr, hrid⟩
      · rintro ⟨r, hr, hrid⟩
        rcases List.mem_append.mp hr with h2 | h2
        · exact (hiff pid).mpr ⟨r, h2, hrid⟩
        · simp only [List.mem_singleton] at h2
          subst h2
          exact hrid ▸ (List.mem_map.mpr ⟨e0, he0, hpe0⟩)
    · intro e' he'
      rw [hres] at he'
      rcases List.mem_map.mp he' with ⟨e, he, rfl⟩
      by_cases hq : e.product_id = row.2.id
      · rw [overviewUpd_of_eq hq]
        constructor
        · show e.total_quantity + row.1.quantity
            = sumRowQ (rowsFor (processed ++ [row]) e.product_id)
          rw [rowsFor_append_single, if_pos hq.symm, sumRowQ_append, (hent e he).1]
          simp [sumRowQ]
        · show e.locations ++ [⟨row.1.location, row.1.quantity⟩]
            = (rowsFor (processed ++ [row]) e.product_id).map mkLQ
          rw [rowsFor_append_single, if_pos hq.symm, List.map_append, (hent e he).2]
          rfl
      · rw [overviewUpd_of_ne hq]
        rw [rowsFor_append_single, if_neg (fun hc => hq hc.symm)]
        simp only [List.append_nil]
        exact hent e he
  · -- first row of this product: a fresh entry is appended
    have hfalse : acc.any (fun e => e.product_id == row.2.id) = false :=
      Bool.eq_false_iff.mpr hany
    have hnone : ∀ e ∈ acc, e.product_id ≠ row.2.id := by
      intro e he hc
      rw [List.any_eq_true] at hany
      exact hany ⟨e, he, beq_iff_eq.mpr hc⟩
    have hres : insertRow acc row = acc ++ [overviewUpd row (overviewZero row.2)] := by
      simp only [insertRow, hfalse, Bool.false_eq_true, if_false, List.map_append,
        List.map_cons, List.map_nil]
      rw [map_overviewUpd_of_none row acc hnone]
    have hzero : overviewUpd row (overviewZero row.2)
        = ⟨row.2.id, row.2.name, row.2.sku, row.1.quantity,
            [⟨row.1.location, row.1.quantity⟩]⟩ := by
      simp [overviewUpd, overviewZero]
    have hnotin : row.2.id ∉ acc.map (fun e => e.product_id) := by
      intro hc
      rcases List.mem_map.mp hc with ⟨e, he, hpe⟩
      exact hnone e he hpe
    have hempty : rowsFor processed row.2.id = [] := by
      apply rowsFor_eq_nil
      intro r hr hc
      exact hnotin ((hiff row.2.id).mpr ⟨r, hr, hc⟩)
    refine ⟨?_, ?_, ?_⟩
    · rw [hres, List.map_append, hzero]
      refine List.Nodup.append hnd (by simp) ?_
      intro a ha hb
      simp only [List.map_cons, List.map_nil, List.mem_singleton] at hb
      subst hb
      exact hnotin ha
    · intro pid
      rw [hres, List.map_append, hzero]
      simp only [List.mem_append, List.map_cons, List.map_nil, List.mem_singleton]
      constructor
      · intro h2
        rcases h2 with h2 | h2
        · rcases (hiff pid).mp h2 with ⟨r, hr, hrid⟩
          exact ⟨r, Or.inl hr, hrid⟩
        · exact ⟨row, Or.inr rfl, h2.symm⟩
      · rintro ⟨r, hr, hrid⟩
        rcases hr with h2 | h2
        · exact Or.inl ((hiff pid).mpr ⟨r, h2, hrid⟩)
        · subst h2
          exact Or.inr hrid.symm
    · intro e' he'
      rw [hres] at he'
      rcases List.mem_append.mp he' with h2 | h2
      · have hpe : e'.product_id ≠ row.2.id := hnone e' h2
        rw [rowsFor_append_single, if_neg (fun hc => hpe hc.symm)]
        simp only [List.append_nil]
        exact hent e' h2
      · simp only [List.mem_singleton] at h2
        subst h2
        rw [hzero]
        constructor
        · show row.1.quantity = sumRowQ (rowsFor (processed ++ [row]) row.2.id)
          rw [rowsFor_append_single, hempty, if_pos rfl]
          simp [sumRowQ]
        · show [(⟨row.1.location, row.1.quantity⟩ : LocationQuantity)]
            = (rowsFor (processed ++ [row]) row.2.id).map mkLQ
          rw [rowsFor_append_single, hempty, if_pos rfl]
          rfl

lemma GInv_foldl (rows : List (WarehouseItem × Product)) :
    ∀ (processed : List (WarehouseItem × Product)) (acc : List InventoryQueryRead),
      GInv processed acc → GInv (processed ++ rows) (rows.foldl insertRow acc) := by
  induction rows with
  | nil => intro processed acc h; simpa using h
  | cons r rows ih =>
    intro processed acc h
    have h1 := GInv_insertRow processed acc r h
    have h2 := ih (processed ++ [r]) (insertRow acc r) h1
    rw [List.append_assoc] at h2
    simpa using h2

lemma GInv_start : GInv [] [] := by
  refine ⟨List.nodup_nil, ?_, ?_⟩
  · intro pid
    constructor
    · intro h2
      cases h2
    · rintro ⟨r, hr, _⟩
      cases hr
  · intro e he
    cases he

lemma groupedOverview_GInv (db : DB) (pn sk : Option String) :
    GInv (overviewRows db pn sk) (groupedOverview db pn sk) := by
  have h := GInv_foldl (overviewRows db pn sk) [] [] GInv_start
  simpa [groupedOverview] using h

lemma overviewRows_pid (db : DB) (pn sk : Option String) :
    ∀ r ∈ overviewRows db pn sk, r.2.id = r.1.product_id := by
  intro r hr
  have hr2 := List.mem_of_mem_filter hr
  rcases List.mem_filterMap.mp hr2 with ⟨it, hit, hmap⟩
  cases hgp : getProduct db it.product_id with
  | none => rw [hgp] at hmap; simp at hmap
  | some p =>
    rw [hgp] at hmap
    have hmap2 : (it, p) = r := by simpa using hmap
    subst hmap2
    exact getProduct_id hgp

lemma mem_overview_mem_grouped {db : DB} {offset limit : Nat}
    {pn sk : Option String} {e : InventoryQueryRead}
    (h : e ∈ get_inventory_overview db offset limit pn sk) :
    e ∈ groupedOverview db pn sk := by
  have h2 : e ∈ (groupedOverview db pn sk).drop offset :=
    (List.take_sublist _ _).subset h
  exact (List.drop_sublist _ _).subset h2

lemma sum_locations_map_mkLQ (rs : List (WarehouseItem × Product)) :
    (((rs.map mkLQ).map (fun lq => lq.quantity)).sum) = sumRowQ rs := by
  simp only [sumRowQ, List.map_map]
  rfl

/-! ## Error-side wrapper helper -/

lemma stock_in_eq_error_iff (db : DB) (req : StockInRequest) (e : StockError) :
    stock_in db req = Except.error e
      ↔ ∃ db2, stock_in_body db req = (db2, Except.error e) := by
  unfold stock_in
  generalize h : stock_in_body db req = x
  rcases x with ⟨db1, res⟩
  cases res with
  | ok y =>
    constructor
    · intro h2; exact Except.noConfusion h2
    · rintro ⟨db2, h2⟩
      injection h2 with h4 h5
      exact Except.noConfusion h5
  | error e2 =>
    constructor
    · intro h2
      injection h2 with h3
      subst h3
      exact ⟨db1, rfl⟩
    · rintro ⟨db2, h2⟩
      injection h2 with h4 h5
      injection h5 with h5
      subst h5
      rfl

/-! ## Concrete fixtures for the witnesses -/

/-- A catalog product. -/
def wProduct : Product := ⟨1, "Widget", "SKU-1"⟩

/-- Two stock rows R1(qty 5), R2(qty 5) of the same product, created in
that order; no movements yet. -/
def dbTwoRecords : DB :=
  ⟨[wProduct], [⟨1, 1, 5, "A1", 5⟩, ⟨2, 1, 5, "A2", 5⟩], [], 3⟩

/-- One stock row holding 50 units at location B2. -/
def dbOneRecord : DB :=
  ⟨[wProduct], [⟨1, 1, 50, "B2", 5⟩], [], 2⟩

/-- One stock row one unit below its safety stock. -/
def dbLow : DB :=
  ⟨[wProduct], [⟨1, 1, 4, "A1", 5⟩], [], 2⟩

/-- The grouped overview entry of `dbTwoRecords`. -/
def ovEntryA : InventoryQueryRead :=
  ⟨1, "Widget", "SKU-1", 10, [⟨"A1", 5⟩, ⟨"A2", 5⟩]⟩

/-! ## Claim theorems -/

/-- C3: whenever a StockOut (targeted or untargeted) fails — with
InsufficientStock or a ProductNotFound-class error — the session state at
the raise point is exactly the entry state: every StockRecord and the
Movement log are unchanged, so no partial deduction or Movement entry is
ever persisted (the rollback of the surrounding transaction has nothing
to undo, and the committed store is untouched). -/
theorem stockOut_failure_state_unchanged (db : DB) (req : StockOutRequest)
    (db2 : DB) (e : StockError)
    (h : stock_out_body db req = (db2, Except.error e)) :
    db2.items = db.items ∧ db2.movements = db.movements := by
  have h2 := stock_out_body_error_state db req db2 e h
  rw [h2]
  exact ⟨rfl, rfl⟩

theorem stockOut_failure_state_unchanged_witness :
    (stock_out_body dbOneRecord ⟨1, 100, some "B2"⟩).1.items = dbOneRecord.items ∧
    (stock_out_body dbOneRecord ⟨1, 100, some "B2"⟩).1.movements = dbOneRecord.movements :=
  stockOut_failure_state_unchanged dbOneRecord ⟨1, 100, some "B2"⟩
    (stock_out_body dbOneRecord ⟨1, 100, some "B2"⟩).1
    (StockError.insufficientStock (ErrorDetail.insufficientAtLocation "B2"))
    (by rfl)

/-- C9 counterexample: a targeted StockOut at a (productId, location)
where the product exists but no StockRecord exists at that location does
NOT fail with a distinct LocationNotFound error: it raises the very same
`ProductNotFoundException` class used for an unknown productId (the
source's exception module has only ProductNotFound and InsufficientStock
classes), differing only in the detail payload. -/
theorem locationNotFound_class_counterexample :
    stock_out dbOneRecord ⟨1, 1, some "ZZ"⟩
      = Except.error (StockError.productNotFound (ErrorDetail.noStockAtLocation "ZZ")) ∧
    stock_out dbOneRecord ⟨99, 1, none⟩
      = Except.error (StockError.productNotFound ErrorDetail.productDefault) := by
  constructor
  · rfl
  · rfl

/-- C9 amended: a targeted StockOut at a (productId, location) where the
product exists but no StockRecord exists at that location fails with the
same ProductNotFoundException class used for an unknown productId,
distinguished only by a location-specific detail payload (there is no
separate LocationNotFound error type in the code). -/
theorem targeted_missing_uses_productNotFound_class (db : DB)
    (req : StockOutRequest) (loc : String) (p : Product)
    (hl : req.location = some loc)
    (htr : optStrTruthy req.location = true)
    (hgp : getProduct db req.product_id = some p)
    (hf : findItem db req.product_id loc = none) :
    stock_out db req
      = Except.error (StockError.productNotFound (ErrorDetail.noStockAtLocation loc)) ∧
    ErrorDetail.noStockAtLocation loc ≠ ErrorDetail.productDefault := by
  constructor
  · exact (stock_out_eq_error_iff db req _).mpr
      ⟨db, stock_out_body_targeted_missing db req p loc hgp hl htr hf⟩
  · intro hc
    cases hc

theorem targeted_missing_uses_productNotFound_class_witness :
    stock_out dbOneRecord ⟨1, 1, some "ZZ"⟩
      = Except.error (StockError.productNotFound (ErrorDetail.noStockAtLocation "ZZ")) :=
  (targeted_missing_uses_productNotFound_class dbOneRecord ⟨1, 1, some "ZZ"⟩
    "ZZ" wProduct rfl rfl rfl rfl).1

/-- C5: StockIn fails (with the default ProductNotFound error) exactly
when the productId does not resolve; otherwise, with an existing record at
(productId, location) that record's quantity grows by exactly the request
quantity, and with no record a single new record with the requested
quantity and the default safetyStock 5 is created; in both cases exactly
one IN Movement of the request quantity, linked to the resulting record,
is appended, and every other StockRecord is unchanged. -/
theorem stockIn_spec (db : DB) (req : StockInRequest) (hq : 0 < req.quantity) :
    ((∃ e, stock_in db req = Except.error e) ↔ getProduct db req.product_id = none) ∧
    (∀ e, stock_in db req = Except.error e
        → e = StockError.productNotFound ErrorDetail.productDefault) ∧
    (∀ p it, getProduct db req.product_id = some p
      → findItem db req.product_id req.location = some it
      → stock_in db req = Except.ok
          ({ db with
              items := replaceById db.items { it with quantity := it.quantity + req.quantity },
              movements := db.movements
                ++ [⟨req.product_id, it.id, MovementType.IN, req.quantity⟩] },
            { it with quantity := it.quantity + req.quantity })
        ∧ ∀ x ∈ db.items, x.id ≠ it.id →
            x ∈ replaceById db.items { it with quantity := it.quantity + req.quantity }) ∧
    (∀ p, getProduct db req.product_id = some p
      → findItem db req.product_id req.location = none
      → stock_in db req = Except.ok
          ({ db with
              items := db.items
                ++ [⟨db.next_item_id, req.product_id, req.quantity, req.location, 5⟩],
              movements := db.movements
                ++ [⟨req.product_id, db.next_item_id, MovementType.IN, req.quantity⟩],
              next_item_id := db.next_item_id + 1 },
            ⟨db.next_item_id, req.product_id, req.quantity, req.location, 5⟩)) := by
  cases hgp : getProduct db req.product_id with
  | none =>
    have hb := stock_in_body_noProduct db req hgp
    refine ⟨?_, ?_, ?_, ?_⟩
    · constructor
      · intro _
        rfl
      · intro _
        exact ⟨_, (stock_in_eq_error_iff db req _).mpr ⟨db, hb⟩⟩
    · intro e he
      rcases (stock_in_eq_error_iff db req e).mp he with ⟨db2, hb2⟩
      have h3 := hb.symm.trans hb2
      injection h3 with h4 h5
      injection h5 with h5
      exact h5.symm
    · intro p it hgp2 _
      cases hgp2
    · intro p hgp2
      cases hgp2
  | some p =>
    cases hf : findItem db req.product_id req.location with
    | some it =>
      have hb := stock_in_body_existing db req p it hgp hf
      refine ⟨?_, ?_, ?_, ?_⟩
      · constructor
        · rintro ⟨e, he⟩
          rcases (stock_in_eq_error_iff db req e).mp he with ⟨db2, hb2⟩
          have h3 := hb.symm.trans hb2
          injection h3 with h4 h5
          exact Except.noConfusion h5
        · intro h2
          exact Option.noConfusion h2
      · intro e he
        rcases (stock_in_eq_error_iff db req e).mp he with ⟨db2, hb2⟩
        have h3 := hb.symm.trans hb2
        injection h3 with h4 h5
        exact Except.noConfusion h5
      · intro p2 it2 hgp2 hf2
        injection hf2 with hit2
        subst hit2
        constructor
        · exact (stock_in_eq_ok_iff db req _ _).mpr hb
        · intro x hx hne
          exact mem_replaceById_of_ne hx hne
      · intro p2 hgp2 hf2
        exact Option.noConfusion hf2
    | none =>
      have hb := stock_in_body_new db req p hgp hf
      refine ⟨?_, ?_, ?_, ?_⟩
      · constructor
        · rintro ⟨e, he⟩
          rcases (stock_in_eq_error_iff db req e).mp he with ⟨db2, hb2⟩
          have h3 := hb.symm.trans hb2
          injection h3 with h4 h5
          exact Except.noConfusion h5
        · intro h2
          exact Option.noConfusion h2
      · intro e he
        rcases (stock_in_eq_error_iff db req e).mp he with ⟨db2, hb2⟩
        have h3 := hb.symm.trans hb2
        injection h3 with h4 h5
        exact Except.noConfusion h5
      · intro p2 it2 hgp2 hf2
        exact Option.noConfusion hf2
      · intro p2 hgp2 hf2
        exact (stock_in_eq_ok_iff db req _ _).mpr hb

theorem stockIn_spec_witness :
    (0 : Int) < 4 ∧
    ((∃ e, stock_in dbTwoRecords ⟨1, 4, "A1"⟩ = Except.error e)
      ↔ getProduct dbTwoRecords 1 = none) :=
  ⟨by decide, (stockIn_spec dbTwoRecords ⟨1, 4, "A1"⟩ (by decide)).1⟩

/-- C4: a targeted StockOut on an existing product fails with a
ProductNotFound-class error exactly when no StockRecord exists at
(productId, location); fails with InsufficientStock exactly when the
record exists and the requested quantity strictly exceeds its quantity
(so a request equal to the record's quantity succeeds); and otherwise
deducts exactly the requested quantity from that one record and appends
exactly one OUT Movement of that quantity linked to it. -/
theorem stockOut_targeted_spec (db : DB) (req : StockOutRequest)
    (loc : String) (p : Product)
    (hl : req.location = some loc)
    (htr : optStrTruthy req.location = true)
    (hq : 0 < req.quantity)
    (hgp : getProduct db req.product_id = some p) :
    ((∃ d, stock_out db req = Except.error (StockError.productNotFound d))
        ↔ findItem db req.product_id loc = none) ∧
    ((∃ d, stock_out db req = Except.error (StockError.insufficientStock d))
        ↔ ∃ it, findItem db req.product_id loc = some it ∧ it.quantity < req.quantity) ∧
    (∀ it, findItem db req.product_id loc = some it → req.quantity ≤ it.quantity →
      stock_out db req = Except.ok
        ({ db with
            items := replaceById db.items { it with quantity := it.quantity - req.quantity },
            movements := db.movements ++ [mkOutMov req.product_id it.id req.quantity] },
          some { it with quantity := it.quantity - req.quantity })) := by
  cases hf : findItem db req.product_id loc with
  | none =>
    have hb := stock_out_body_targeted_missing db req p loc hgp hl htr hf
    refine ⟨?_, ?_, ?_⟩
    · constructor
      · intro _
        rfl
      · intro _
        exact ⟨_, (stock_out_eq_error_iff db req _).mpr ⟨db, hb⟩⟩
    · constructor
      · rintro ⟨d, hd⟩
        rcases (stock_out_eq_error_iff db req _).mp hd with ⟨db2, hb2⟩
        have h3 := hb.symm.trans hb2
        injection h3 with h4 h5
        injection h5 with h5
        exact StockError.noConfusion h5
      · rintro ⟨it, hit, _⟩
        exact Option.noConfusion hit
    · intro it hit _
      exact Option.noConfusion hit
  | some it =>
    by_cases hlt : it.quantity < req.quantity
    · have hb := stock_out_body_targeted_insufficient db req p loc it hgp hl htr hf hlt
      refine ⟨?_, ?_, ?_⟩
      · constructor
        · rintro ⟨d, hd⟩
          rcases (stock_out_eq_error_iff db req _).mp hd with ⟨db2, hb2⟩
          have h3 := hb.symm.trans hb2
          injection h3 with h4 h5
          injection h5 with h5
          exact StockError.noConfusion h5
        · intro h2
          exact Option.noConfusion h2
      · constructor
        · intro _
          exact ⟨it, rfl, hlt⟩
        · intro _
          exact ⟨_, (stock_out_eq_error_iff db req _).mpr ⟨db, hb⟩⟩
      · intro it2 hit2 hge2
        injection hit2 with hit2
        subst hit2
        exact absurd hge2 (not_le.mpr hlt)
    · have hb := stock_out_body_targeted_ok db req p loc it hgp hl htr hf hlt
      refine ⟨?_, ?_, ?_⟩
      · constructor
        · rintro ⟨d, hd⟩
          rcases (stock_out_eq_error_iff db req _).mp hd with ⟨db2, hb2⟩
          have h3 := hb.symm.trans hb2
          injection h3 with h4 h5
          exact Except.noConfusion h5
        · intro h2
          exact Option.noConfusion h2
      · constructor
        · rintro ⟨d, hd⟩
          rcases (stock_out_eq_error_iff db req _).mp hd with ⟨db2, hb2⟩
          have h3 := hb.symm.trans hb2
          injection h3 with h4 h5
          exact Except.noConfusion h5
        · rintro ⟨it2, hit2, hlt2⟩
          injection hit2 with hit2
          subst hit2
          exact absurd hlt2 hlt
      · intro it2 hit2 hge
        injection hit2 with hit2
        subst hit2
        exact (stock_out_eq_ok_iff db req _ _).mpr hb

theorem stockOut_targeted_spec_witness :
    (0 : Int) < 100 ∧
    ((∃ d, stock_out dbOneRecord ⟨1, 100, some "B2"⟩
        = Except.error (StockError.insufficientStock d))
      ↔ ∃ it, findItem dbOneRecord 1 "B2" = some it ∧ it.quantity < 100) :=
  ⟨by decide,
    (stockOut_targeted_spec dbOneRecord ⟨1, 100, some "B2"⟩ "B2" wProduct
      rfl rfl (by decide) rfl).2.1⟩

/-- C1: an untargeted StockOut of a positive quantity on an existing
product whose positive-quantity records (ordered by ascending record id,
`availableItems`) cover the request succeeds and performs the greedy walk
`walkDeduct`: it emits exactly one OUT Movement per touched record — in
walk order, carrying exactly the amount deducted from that record — the
deductions are all positive, sum to the requested quantity, follow the
`min(record.quantity, remaining)` rule over the id-ordered prefix of the
available records, and the call returns the first touched record.
Determinism of the split is immediate: the embedding is a pure function
of the starting state, so a repeat from the same state yields the same
result. -/
theorem stockOut_untargeted_allocation (db : DB) (req : StockOutRequest)
    (p : Product)
    (hl : req.location = none)
    (hq : 0 < req.quantity)
    (hgp : getProduct db req.product_id = some p)
    (hsum : req.quantity ≤ sumQ (availableItems db req.product_id)) :
    stock_out db req = Except.ok
      ({ db with
          items := (walkDeduct (availableItems db req.product_id) req.quantity).1.foldl
            replaceById db.items,
          movements := db.movements
            ++ (walkDeduct (availableItems db req.product_id) req.quantity).2.map
                (fun d => mkOutMov req.product_id d.1 d.2) },
        (walkDeduct (availableItems db req.product_id) req.quantity).1.head?) ∧
    ((walkDeduct (availableItems db req.product_id) req.quantity).2.map Prod.snd).sum
      = req.quantity ∧
    (∀ pr ∈ (walkDeduct (availableItems db req.product_id) req.quantity).2, 0 < pr.2) ∧
    (walkDeduct (availableItems db req.product_id) req.quantity).1.map (fun x => x.id)
      = ((availableItems db req.product_id).map (fun x => x.id)).take
          (walkDeduct (availableItems db req.product_id) req.quantity).2.length ∧
    (walkDeduct (availableItems db req.product_id) req.quantity).1 ≠ [] ∧
    (∀ (j : Nat) (a : WarehouseItem) (pr : Nat × Int),
      (availableItems db req.product_id)[j]? = some a →
      (walkDeduct (availableItems db req.product_id) req.quantity).2[j]? = some pr →
      pr.1 = a.id ∧
      pr.2 = min a.quantity
        (req.quantity
          - (((walkDeduct (availableItems db req.product_id) req.quantity).2.take j).map
              Prod.snd).sum) ∧
      (walkDeduct (availableItems db req.product_id) req.quantity).1[j]?
        = some { a with quantity := a.quantity - pr.2 }) := by
  have htr : optStrTruthy req.location = false := by rw [hl]; rfl
  have hfacts := availableItems_facts db req.product_id
  have hne : availableItems db req.product_id ≠ [] := by
    intro hc
    rw [hc] at hsum
    have : sumQ ([] : List WarehouseItem) = 0 := rfl
    rw [this] at hsum
    omega
  have hnlt : ¬ sumQ (availableItems db req.product_id) < req.quantity := not_lt.mpr hsum
  refine ⟨?_, ?_, ?_, ?_, ?_, ?_⟩
  · exact (stock_out_eq_ok_iff db req _ _).mpr
      (stock_out_body_untargeted_ok db req p hgp htr hne hnlt)
  · exact walkDeduct_deds_sum (availableItems db req.product_id) req.quantity
      (fun a ha => (hfacts a ha).2.2) hsum (fun hc => absurd hc hne)
  · exact walkDeduct_deds_pos (availableItems db req.product_id) req.quantity
      (fun a ha => (hfacts a ha).2.2) (le_of_lt hq)
  · exact ((walkDeduct_ids (availableItems db req.product_id) req.quantity).1).trans
      ((walkDeduct_ids (availableItems db req.product_id) req.quantity).2)
  · exact walkDeduct_touched_ne_nil hne (by omega)
  · intro j a pr ha hpr
    exact walkDeduct_step (availableItems db req.product_id) req.quantity j a pr ha hpr

theorem stockOut_untargeted_allocation_witness :
    (0 : Int) < 7 ∧
    ((walkDeduct (availableItems dbTwoRecords 1) 7).2.map Prod.snd).sum = 7 ∧
    (walkDeduct (availableItems dbTwoRecords 1) 7).2 = [(1, 5), (2, 2)] :=
  ⟨by decide,
    (stockOut_untargeted_allocation dbTwoRecords ⟨1, 7, none⟩ wProduct
      rfl (by decide) rfl (by decide)).2.1,
    by decide⟩

/-- C6: LowStockAlerts lists a product exactly when it owns at least one
StockRecord and the sum of its records' quantities is strictly below the
sum of their safetyStock values; the strict comparison makes the
equal-total boundary unflagged and one unit below flagged. -/
theorem lowStock_iff (db : DB) (p : Product) (hp : p ∈ db.products) :
    (∃ a ∈ get_low_stock_alerts db, a.product_id = p.id)
      ↔ (productItems db p.id ≠ []
          ∧ sumQ (productItems db p.id) < sumSS (productItems db p.id)) := by
  constructor
  · rintro ⟨a, ha, hpid⟩
    unfold get_low_stock_alerts at ha
    rcases List.mem_map.mp ha with ⟨p2, hp2, hmk⟩
    have hqual := List.of_mem_filter hp2
    have h3 : a.product_id = p2.id := by rw [← hmk]
    have hpid2 : p2.id = p.id := by rw [← h3, hpid]
    unfold lowStockQualifies at hqual
    rw [Bool.and_eq_true] at hqual
    obtain ⟨h1, h2⟩ := hqual
    rw [hpid2] at h1 h2
    constructor
    · intro hc
      rw [hc] at h1
      simp at h1
    · exact of_decide_eq_true h2
  · rintro ⟨hne, hlt⟩
    have hqual : lowStockQualifies db p = true := by
      unfold lowStockQualifies
      rw [Bool.and_eq_true]
      constructor
      · rw [isEmpty_eq_false_of_ne_nil hne]
        rfl
      · exact decide_eq_true hlt
    exact ⟨_, List.mem_map_of_mem _ (List.mem_filter.mpr ⟨hp, hqual⟩), rfl⟩

theorem lowStock_iff_witness :
    (∃ a ∈ get_low_stock_alerts dbLow, a.product_id = wProduct.id) ∧
    get_low_stock_alerts dbTwoRecords = [] :=
  ⟨(lowStock_iff dbLow wProduct (by decide)).mpr ⟨by decide, by decide⟩,
    by decide⟩

/-- C7: if every StockRecord quantity is non-negative before an operation
then it is still non-negative after any StockIn or StockOut, successful
or failed (with the schema-level `conint(gt=0)` request-quantity
validation assumed): the sufficiency checks and the min-based deduction
never drive a quantity below zero. -/
theorem quantities_nonneg_preserved (db : DB) (op : Op)
    (h : ItemsNonNeg db) (hq : opQtyPos op) :
    ItemsNonNeg (applyOp db op) := by
  cases op with
  | opIn r =>
    rw [applyOp_opIn]
    exact stock_in_body_nonneg db r h hq
  | opOut r =>
    rw [applyOp_opOut]
    exact stock_out_body_nonneg db r h

theorem quantities_nonneg_preserved_witness :
    ItemsNonNeg (applyOp dbTwoRecords (Op.opOut ⟨1, 7, none⟩)) :=
  quantities_nonneg_preserved dbTwoRecords (Op.opOut ⟨1, 7, none⟩)
    (by show ∀ it ∈ dbTwoRecords.items, (0 : Int) ≤ it.quantity; decide)
    (by show (0 : Int) < 7; decide)

/-- C2: for any sequence of StockIn/StockOut operations starting from a
state with no stock records and no movements (any catalog), at every
point — every state reached by running any prefix of operations is of
exactly this `runOps` form — and for every product,
`sum(IN movement quantities) - sum(OUT movement quantities)` equals the
sum of the current StockRecord quantities of that product.  Failed
operations roll back, so both successful and failing calls preserve the
equality. -/
theorem movement_conservation (ps : List Product) (n : Nat) (ops : List Op) :
    Conservation (runOps { products := ps, items := [], movements := [], next_item_id := n } ops) := by
  have hc0 : Conservation
      ({ products := ps, items := [], movements := [], next_item_id := n } : DB) := by
    intro pid
    rfl
  have hwf0 : WF
      ({ products := ps, items := [], movements := [], next_item_id := n } : DB) := by
    constructor
    · exact List.nodup_nil
    · intro it hit
      exact absurd hit (List.not_mem_nil it)
  exact (runOps_preserves ops _ hc0 hwf0).1

/-- C8: Overview paginates the grouped per-product result set, not the
underlying row set: the returned list is the slice
`[offset : offset + limit]` of the grouped entries, and every returned
entry carries the complete location breakdown of its product (all
filter-matching rows of that product), so a product's locations are never
split across pages. -/
theorem overview_pagination_grouped (db : DB) (offset limit : Nat)
    (pn sk : Option String) :
    get_inventory_overview db offset limit pn sk
      = ((groupedOverview db pn sk).drop offset).take limit ∧
    ∀ e ∈ get_inventory_overview db offset limit pn sk,
      e ∈ groupedOverview db pn sk ∧
      e.locations = (rowsFor (overviewRows db pn sk) e.product_id).map mkLQ := by
  refine ⟨rfl, ?_⟩
  intro e he
  have hg := mem_overview_mem_grouped he
  exact ⟨hg, ((groupedOverview_GInv db pn sk).2.2 e hg).2⟩

theorem overview_pagination_grouped_witness :
    ovEntryA ∈ groupedOverview dbTwoRecords none none :=
  ((overview_pagination_grouped dbTwoRecords 0 100 none none).2
    ovEntryA (by decide)).1

/-- C10: every entry returned by Overview is internally consistent: its
total_quantity equals the sum of the quantities of its location
breakdown, and the breakdown has exactly one (location, quantity) pair
per filter-matching StockRecord of that product, in row order. -/
theorem overview_entries_consistent (db : DB) (offset limit : Nat)
    (pn sk : Option String) :
    ∀ e ∈ get_inventory_overview db offset limit pn sk,
      e.total_quantity = ((e.locations.map (fun lq => lq.quantity)).sum) ∧
      e.locations = ((overviewRows db pn sk).filter
          (fun r => r.1.product_id == e.product_id)).map mkLQ := by
  intro e he
  have hg := mem_overview_mem_grouped he
  have hent := (groupedOverview_GInv db pn sk).2.2 e hg
  constructor
  · rw [hent.2, sum_locations_map_mkLQ, hent.1]
  · rw [hent.2]
    congr 1
    unfold rowsFor
    apply List.filter_congr
    intro r hr
    rw [overviewRows_pid db pn sk r hr]

theorem overview_entries_consistent_witness :
    ovEntryA.total_quantity
      = ((ovEntryA.locations.map (fun lq => lq.quantity)).sum) :=
  (overview_entries_consistent dbTwoRecords 0 100 none none
    ovEntryA (by decide)).1
